import Mathlib

/-!
Shallow embedding of `bevy_textbox` (src/lib.rs): a textbox UI core that
spawns a short-lived Section entity per fragment-ready event, installs a
two-stage completion chain (scroll-end handler A, clear handler B), and
coordinates a shared continue indicator through ordered visibility events.

The ECS world is modelled as an association list of entity records plus the
event queues and the registered one-shot system table.  The two Bevy systems
`spawn_section_frags` and `update_continue_visibility` become pure functions
on this world; the two closures registered by `spawn_section_frags` become
`runScrollEnd` (handler A) and `runClear` (handler B).  A panic in the Rust
code (`unwrap`, inserting into a despawned entity) is modelled as
`Except.error`.
-/

abbrev Entity := Nat
abbrev SystemId := Nat
abbrev EndToken := Nat
abbrev Bundle := Nat
abbrev TypeWriterSection := String

/-- Bevy visibility component: `Inherited` is the default state. -/
inductive Visibility where
  | Inherited
  | Hidden
  | Visible
  deriving DecidableEq, Inhabited, Repr

/-- The fragment payload: owning textbox plus opaque section content
(`SectionFrag` in the source; the Rust field `section` is `sec` here because
`section` is a Lean keyword). -/
structure SectionFrag where
  textbox : Entity
  sec : TypeWriterSection
  deriving DecidableEq, Inhabited, Repr

/-- A fragment-ready notification (`FragmentEvent<SectionFrag>`): payload plus
the completion token reported back through `event.end()`. -/
structure FragmentEvent where
  data : SectionFrag
  endTok : EndToken
  deriving DecidableEq, Inhabited, Repr

/-- A visibility request (`UpdateContinueVis`): target textbox entity and the
requested visibility. -/
structure UpdateContinueVis where
  entity : Entity
  visibility : Visibility
  deriving DecidableEq, Inhabited, Repr

/-- The two one-shot closures registered by `spawn_section_frags`, as data:
each captures the section entity, the owning textbox and the completion
token. -/
inductive Handler where
  | scrollEnd (entity textbox : Entity) (tok : EndToken)
  | clear (entity textbox : Entity) (tok : EndToken)
  deriving DecidableEq, Inhabited, Repr

/-- The components an entity may carry in this embedding.  `textBox` holds the
attachment-strategy bundle of a `TextBox` component (the `Arc` closure in the
source inserts one cloned bundle; we record the bundle value it inserts).
`extra` is the decoration that strategy inserted on a section.  `scroll`
records presence of the `Scroll::default()` marker. -/
structure EntityData where
  textBox : Option Bundle := none
  isContinue : Bool := false
  visibility : Option Visibility := none
  children : List Entity := []
  sec : Option TypeWriterSection := none
  scroll : Bool := false
  onScrollEnd : Option SystemId := none
  awaitClear : Bool := false
  onClear : Option SystemId := none
  extra : Option Bundle := none
  deriving DecidableEq, Inhabited, Repr

/-- The world: entities, fresh-id counters, the registered one-shot system
table, and the three event queues. -/
structure World where
  entities : List (Entity × EntityData) := []
  nextId : Entity := 0
  systems : List (SystemId × Handler) := []
  nextSystem : SystemId := 0
  visEvents : List UpdateContinueVis := []
  fragEvents : List FragmentEvent := []
  endEvents : List EndToken := []
  deriving DecidableEq, Inhabited, Repr

/-- First-match association-list lookup. -/
def lookupA {α : Type} : List (Nat × α) → Nat → Option α
  | [], _ => none
  | (k, v) :: rest, e => if k = e then some v else lookupA rest e

/-- Replace the first binding of `k` (append a new binding if absent). -/
def updateA {α : Type} : List (Nat × α) → Nat → α → List (Nat × α)
  | [], k, v => [(k, v)]
  | (k', v') :: rest, k, v =>
    if k' = k then (k, v) :: rest else (k', v') :: updateA rest k v

def getEntity (w : World) (e : Entity) : Option EntityData :=
  lookupA w.entities e

def setEntity (w : World) (e : Entity) (d : EntityData) : World :=
  { w with entities := updateA w.entities e d }

/-- The `Children` of an entity (empty when the entity or component is absent). -/
def childrenOf (w : World) (t : Entity) : List Entity :=
  match getEntity w t with
  | some d => d.children
  | none => []

def visOf (w : World) (c : Entity) : Option Visibility :=
  (getEntity w c).bind (fun d => d.visibility)

/-- A section that has completed stage 1 (handler A marked it `AwaitClear`)
but not stage 2 (it still exists). -/
def awaiting (w : World) (e : Entity) : Bool :=
  match getEntity w e with
  | some d => d.awaitClear
  | none => false

def isTextBox (w : World) (t : Entity) : Bool :=
  match getEntity w t with
  | some d => d.textBox.isSome
  | none => false

/-- Matches `Query<&mut Visibility, With<Continue>>`: the child must carry both
the `Continue` marker and a `Visibility` component. -/
def isContinueVis (w : World) (c : Entity) : Bool :=
  match getEntity w c with
  | some d => d.isContinue && d.visibility.isSome
  | none => false

def lookupSystem (w : World) (sid : SystemId) : Option Handler :=
  lookupA w.systems sid

def onScrollEndOf (w : World) (e : Entity) : Option SystemId :=
  (getEntity w e).bind (fun d => d.onScrollEnd)

def onClearOf (w : World) (e : Entity) : Option SystemId :=
  (getEntity w e).bind (fun d => d.onClear)

/-- The attachment-strategy bundle stored in an entity's `TextBox` component. -/
def bundleOf (w : World) (t : Entity) : Option Bundle :=
  (getEntity w t).bind (fun d => d.textBox)

/-- One iteration of the inner loop of `update_continue_visibility`: set the
child's visibility when it matches `Query<&mut Visibility, With<Continue>>`. -/
def setChildVis (w : World) (v : Visibility) (c : Entity) : World :=
  match getEntity w c with
  | some d =>
    if d.isContinue && d.visibility.isSome then
      setEntity w c { d with visibility := some v }
    else w
  | none => w

/-- Process one `UpdateContinueVis` event: look the target up through
`Query<&Children, With<TextBox>>` and broadcast the requested visibility to
every matching child; skip silently when the lookup fails. -/
def applyVisEvent (w : World) (ev : UpdateContinueVis) : World :=
  match getEntity w ev.entity with
  | some d =>
    if d.textBox.isSome then
      d.children.foldl (fun acc c => setChildVis acc ev.visibility c) w
    else w
  | none => w

/-- The system `update_continue_visibility`: drain the visibility-request
queue in emission order. -/
def update_continue_visibility (w : World) : World :=
  { w.visEvents.foldl applyVisEvent w with visEvents := [] }

/-- `commands.spawn_empty().id()`: reserve the next entity id and add an
entity with no components. -/
def freshEntityId (w : World) : Entity × World :=
  (w.nextId,
    { w with entities := w.entities ++ [(w.nextId, {})], nextId := w.nextId + 1 })

/-- `commands.register_system`: append a one-shot system and return its id. -/
def registerSystem (w : World) (h : Handler) : SystemId × World :=
  (w.nextSystem,
    { w with systems := w.systems ++ [(w.nextSystem, h)],
             nextSystem := w.nextSystem + 1 })

/-- Apply a component mutation to an existing entity (no-op when absent). -/
def insertWith (w : World) (e : Entity) (f : EntityData → EntityData) : World :=
  match getEntity w e with
  | some d => setEntity w e (f d)
  | none => w

/-- The error produced by `textboxes.get(textbox).unwrap()` when the fragment
references an entity without a `TextBox` component. -/
def noTextboxMsg (t : Entity) : String :=
  "called Result::unwrap on an Err value: QueryEntityError: entity " ++
    toString t ++ " does not have a TextBox component"

/-- The panic produced by applying `commands.entity(entity).insert(..)` after
the entity was despawned. -/
def insertDespawnedMsg (e : Entity) : String :=
  "error[B0003]: could not insert components into entity " ++ toString e ++
    ", which was despawned"

/-- The loop body of `spawn_section_frags` for one fragment-ready event:
spawn an empty section entity, register handler A (`on_end`), insert the
section content, a fresh `Scroll` marker, the `OnScrollEnd` registration and
the textbox's attachment-strategy decoration, then add the section as a child
of the textbox.  The `unwrap` on the textbox query is `Except.error`. -/
def spawnSectionFrag (w : World) (ev : FragmentEvent) : Except String World :=
  let textbox := ev.data.textbox
  let p1 := freshEntityId w
  let entity := p1.1
  let p2 := registerSystem p1.2 (Handler.scrollEnd entity textbox ev.endTok)
  let onEnd := p2.1
  let w2 := p2.2
  match bundleOf w2 textbox with
  | none => Except.error (noTextboxMsg textbox)
  | some b =>
    let w3 := insertWith w2 entity (fun d =>
      { d with sec := some ev.data.sec, scroll := true,
               onScrollEnd := some onEnd, extra := some b })
    Except.ok (insertWith w3 textbox (fun dt =>
      { dt with children := dt.children ++ [entity] }))

/-- The system `spawn_section_frags`: drain the fragment-ready queue in order;
a fragment referencing an entity without `TextBox` aborts the whole pass. -/
def spawn_section_frags (w : World) : Except String World :=
  w.fragEvents.foldlM spawnSectionFrag { w with fragEvents := [] }

/-- Handler A (the `on_end` closure): register handler B, arm the section
with `(AwaitClear, OnClear(id))`, and emit a Show request for the owning
textbox.  The event write happens in the closure body, the component insert
is a deferred command that panics when the section was already despawned. -/
def runScrollEnd (w : World) (entity textbox : Entity) (tok : EndToken) :
    Except String World :=
  let p := registerSystem w (Handler.clear entity textbox tok)
  let sid := p.1
  let w1 := p.2
  let w2 := { w1 with visEvents := w1.visEvents ++ [⟨textbox, Visibility.Visible⟩] }
  match getEntity w2 entity with
  | some d =>
    Except.ok (setEntity w2 entity { d with awaitClear := true, onClear := some sid })
  | none => Except.error (insertDespawnedMsg entity)

/-- Relationship cleanup on despawn: drop entity `e` from a `Children` list. -/
def dropChild (e : Entity) (p : Entity × EntityData) : Entity × EntityData :=
  (p.1, { p.2 with children := p.2.children.filter (fun c => c ≠ e) })

/-- `commands.entity(e).despawn()`: remove the entity and (Bevy relationship
cleanup) drop it from every `Children` list; warns and does nothing when the
entity is already gone. -/
def despawnEntity (w : World) (e : Entity) : World :=
  match getEntity w e with
  | some _ =>
    { w with entities := (w.entities.filter (fun p => p.1 ≠ e)).map (dropChild e) }
  | none => w

/-- Handler B (the clear closure): emit the fragment's completion token,
despawn the section, and emit a Hide request for the owning textbox.  The two
event writes happen unconditionally in the closure body. -/
def runClear (w : World) (entity textbox : Entity) (tok : EndToken) : World :=
  let w1 := { w with endEvents := w.endEvents ++ [tok] }
  let w2 := despawnEntity w1 entity
  { w2 with visEvents := w2.visEvents ++ [⟨textbox, Visibility.Hidden⟩] }

/-- The ambient textbox context (`Context<TextBoxEntity>` resolved by the
surrounding sequencing scope). -/
structure TextBoxEntity where
  entity : Entity
  deriving DecidableEq, Inhabited, Repr

structure Context where
  current : TextBoxEntity
  deriving DecidableEq, Inhabited, Repr

/-- The three authored content kinds covered by `impl_into_frag!`. -/
inductive Content where
  | staticStr (s : String)
  | ownedString (s : String)
  | typeWriterSection (t : TypeWriterSection)
  deriving DecidableEq, Inhabited, Repr

/-- The per-kind `$into` conversion of the macro: `.into()` on both string
kinds, identity on `TypeWriterSection`. -/
def contentToSection : Content → TypeWriterSection
  | Content.staticStr s => s
  | Content.ownedString s => s
  | Content.typeWriterSection t => t

/-- The sequencing-layer registration value the conversion hands over
(`DataLeaf::new(..)`). -/
structure DataLeaf where
  frag : SectionFrag
  deriving DecidableEq, Inhabited, Repr

/-- `into_fragment` as generated by `impl_into_frag!`: read the textbox from
the ambient context and wrap the converted content in a `DataLeaf` for the
sequencing layer. -/
def into_fragment (c : Content) (ctx : Context) : DataLeaf :=
  ⟨{ textbox := ctx.current.entity, sec := contentToSection c }⟩

/-- Reflexive-transitive closure of a step relation on worlds. -/
inductive Steps (r : World → World → Prop) : World → World → Prop where
  | refl (w : World) : Steps r w w
  | tail (w1 w2 w3 : World) : Steps r w1 w2 → r w2 w3 → Steps r w1 w3

/-- One scheduler-visible step of the textbox core: drain one of the two event
queues, or deliver an external trigger (scroll end, clear signal) by running
the one-shot system it is registered to.  Trigger delivery requires the
trigger component to reference a registered handler for that section, and the
section to be wired as a child of its owning textbox. -/
inductive TStep : World → World → Prop where
  | drainFrags (w w' : World) (h : spawn_section_frags w = Except.ok w') : TStep w w'
  | drainVis (w w' : World) (h : w' = update_continue_visibility w) : TStep w w'
  | scrollEnd (w w' : World) (e tb : Entity) (tok : EndToken) (sid : SystemId)
      (hreg : onScrollEndOf w e = some sid)
      (hsys : lookupSystem w sid = some (Handler.scrollEnd e tb tok))
      (hchild : e ∈ childrenOf w tb)
      (hrun : runScrollEnd w e tb tok = Except.ok w') : TStep w w'
  | clearSig (w w' : World) (e tb : Entity) (tok : EndToken) (sid : SystemId)
      (hreg : onClearOf w e = some sid)
      (hawait : awaiting w e = true)
      (hsys : lookupSystem w sid = some (Handler.clear e tb tok))
      (hchild : e ∈ childrenOf w tb)
      (hrun : w' = runClear w e tb tok) : TStep w w'

/-- Serialized steps: like `TStep`, but a clear signal may only fire when its
section is the unique awaiting-clear section of its textbox, i.e. stage-1 to
stage-2 windows of sections of one textbox never overlap. -/
inductive SerStep : World → World → Prop where
  | drainFrags (w w' : World) (h : spawn_section_frags w = Except.ok w') : SerStep w w'
  | drainVis (w w' : World) (h : w' = update_continue_visibility w) : SerStep w w'
  | scrollEnd (w w' : World) (e tb : Entity) (tok : EndToken) (sid : SystemId)
      (hreg : onScrollEndOf w e = some sid)
      (hsys : lookupSystem w sid = some (Handler.scrollEnd e tb tok))
      (hchild : e ∈ childrenOf w tb)
      (hrun : runScrollEnd w e tb tok = Except.ok w') : SerStep w w'
  | clearSig (w w' : World) (e tb : Entity) (tok : EndToken) (sid : SystemId)
      (hreg : onClearOf w e = some sid)
      (hawait : awaiting w e = true)
      (hsys : lookupSystem w sid = some (Handler.clear e tb tok))
      (hchild : e ∈ childrenOf w tb)
      (huniq : ∀ x, x ∈ childrenOf w tb → awaiting w x = true → x = e)
      (hrun : w' = runClear w e tb tok) : SerStep w w'

/-- Structural well-formedness of a world: entity and system ids are below
their fresh-id counters, entity keys are distinct, child references are
allocated ids, and every entity is the child of at most one parent. -/
def WF (w : World) : Prop :=
  (∀ p ∈ w.entities, p.1 < w.nextId) ∧
  (∀ p ∈ w.systems, p.1 < w.nextSystem) ∧
  (w.entities.map Prod.fst).Nodup ∧
  (∀ p ∈ w.entities, ∀ c ∈ p.2.children, c < w.nextId) ∧
  (∀ p ∈ w.entities, ∀ q ∈ w.entities, ∀ c ∈ p.2.children, c ∈ q.2.children → p.1 = q.1)

/-- Replay a queue of visibility requests on top of a starting visibility,
keeping only those addressed to textbox `t` (last write wins). -/
def appliedVis (t : Entity) (v : Option Visibility) (evs : List UpdateContinueVis) :
    Option Visibility :=
  evs.foldl (fun acc ev => if ev.entity = t then some ev.visibility else acc) v

/-- The visibility the spec's invariant prescribes for the indicator of
textbox `t`: Visible when some section child is between stage 1 and stage 2,
Hidden otherwise. -/
def indicatorTarget (w : World) (t : Entity) : Visibility :=
  if (childrenOf w t).any (fun e => awaiting w e) then Visibility.Visible
  else Visibility.Hidden

/-- The stage/indicator correspondence: for every textbox and every indicator
child, the pending visibility requests replayed on the current visibility
land exactly on the value the stage-1/stage-2 state prescribes.  At a tick
boundary after event draining (`visEvents = []`) this is the spec's iff. -/
def StageVisInv (w : World) : Prop :=
  ∀ t c, isTextBox w t = true → c ∈ childrenOf w t → isContinueVis w c = true →
    appliedVis t (visOf w c) w.visEvents = some (indicatorTarget w t)

/-- Decidable bounded form of `StageVisInv`, quantifying over the entity list. -/
def StageVisInvB (w : World) : Prop :=
  ∀ p ∈ w.entities, p.2.textBox.isSome = true →
    ∀ c ∈ p.2.children, isContinueVis w c = true →
      appliedVis p.1 (visOf w c) w.visEvents = some (indicatorTarget w p.1)

instance (w : World) : Decidable (WF w) := by
  unfold WF
  infer_instance

instance (w : World) : Decidable (StageVisInvB w) := by
  unfold StageVisInvB
  infer_instance

/-- Extract the world of a successful pass (used to spell out concrete runs). -/
def okD (r : Except String World) : World :=
  match r with
  | Except.ok w => w
  | Except.error _ => default

theorem lookupA_updateA_self {α : Type} (l : List (Nat × α)) (k : Nat) (v : α) :
    lookupA (updateA l k v) k = some v := by
  induction l with
  | nil => simp [updateA, lookupA]
  | cons p rest ih =>
    obtain ⟨k', v'⟩ := p
    by_cases h : k' = k
    · simp [updateA, h, lookupA]
    · simp [updateA, h, lookupA, ih]

theorem lookupA_updateA_ne {α : Type} (l : List (Nat × α)) (k k' : Nat) (v : α)
    (h : k' ≠ k) : lookupA (updateA l k v) k' = lookupA l k' := by
  have h' : ¬k = k' := fun hc => h hc.symm
  induction l with
  | nil => simp [updateA, lookupA, h']
  | cons p rest ih =>
    obtain ⟨k0, v0⟩ := p
    by_cases hk : k0 = k
    · subst hk
      simp [updateA, lookupA, h']
    · simp [updateA, hk, lookupA, ih]

theorem lookupA_append_of_some {α : Type} (l m : List (Nat × α)) (k : Nat) (u : α)
    (h : lookupA l k = some u) : lookupA (l ++ m) k = some u := by
  induction l with
  | nil => simp [lookupA] at h
  | cons p rest ih =>
    obtain ⟨k0, v0⟩ := p
    by_cases hk : k0 = k
    · simp [lookupA, hk] at h ⊢
      exact h
    · simp [lookupA, hk] at h ⊢
      exact ih h

theorem lookupA_append_of_none {α : Type} (l m : List (Nat × α)) (k : Nat)
    (h : lookupA l k = none) : lookupA (l ++ m) k = lookupA m k := by
  induction l with
  | nil => simp
  | cons p rest ih =>
    obtain ⟨k0, v0⟩ := p
    by_cases hk : k0 = k
    · simp [lookupA, hk] at h
    · simp [lookupA, hk] at h ⊢
      exact ih h

theorem lookupA_none_of_lt {α : Type} (l : List (Nat × α)) (n : Nat)
    (h : ∀ p ∈ l, p.1 < n) : lookupA l n = none := by
  induction l with
  | nil => simp [lookupA]
  | cons p rest ih =>
    obtain ⟨k0, v0⟩ := p
    have hk : k0 < n := h (k0, v0) (List.mem_cons_self _ _)
    have : k0 ≠ n := Nat.ne_of_lt hk
    simp [lookupA, this]
    exact ih (fun q hq => h q (List.mem_cons_of_mem _ hq))

theorem lookupA_mem {α : Type} (l : List (Nat × α)) (k : Nat) (v : α)
    (h : lookupA l k = some v) : (k, v) ∈ l := by
  induction l with
  | nil => simp [lookupA] at h
  | cons p rest ih =>
    obtain ⟨k0, v0⟩ := p
    by_cases hk : k0 = k
    · subst hk
      simp [lookupA] at h
      subst h
      exact List.mem_cons_self _ _
    · simp [lookupA, hk] at h
      exact List.mem_cons_of_mem _ (ih h)

theorem mem_lookupA {α : Type} (l : List (Nat × α)) (k : Nat) (v : α)
    (hnd : (l.map Prod.fst).Nodup) (h : (k, v) ∈ l) : lookupA l k = some v := by
  induction l with
  | nil => simp at h
  | cons p rest ih =>
    obtain ⟨k0, v0⟩ := p
    simp at hnd
    rcases List.mem_cons.mp h with heq | hmem
    · rw [show k = k0 from congrArg Prod.fst heq, show v = v0 from congrArg Prod.snd heq]
      simp [lookupA]
    · have hk : k0 ≠ k := by
        intro hc
        subst hc
        exact hnd.1 v hmem
      simp [lookupA, hk]
      exact ih hnd.2 hmem

theorem updateA_of_none {α : Type} (l : List (Nat × α)) (k : Nat) (v : α)
    (h : lookupA l k = none) : updateA l k v = l ++ [(k, v)] := by
  induction l with
  | nil => simp [updateA]
  | cons p rest ih =>
    obtain ⟨k0, v0⟩ := p
    by_cases hk : k0 = k
    · simp [lookupA, hk] at h
    · simp [lookupA, hk] at h
      simp [updateA, hk, ih h]

theorem updateA_append_left {α : Type} (l m : List (Nat × α)) (k : Nat) (v u : α)
    (h : lookupA l k = some u) : updateA (l ++ m) k v = updateA l k v ++ m := by
  induction l with
  | nil => simp [lookupA] at h
  | cons p rest ih =>
    obtain ⟨k0, v0⟩ := p
    by_cases hk : k0 = k
    · simp [updateA, hk]
    · simp [lookupA, hk] at h
      simp [updateA, hk, ih h]

theorem updateA_keys {α : Type} (l : List (Nat × α)) (k : Nat) (v u : α)
    (h : lookupA l k = some u) : (updateA l k v).map Prod.fst = l.map Prod.fst := by
  induction l with
  | nil => simp [lookupA] at h
  | cons p rest ih =>
    obtain ⟨k0, v0⟩ := p
    by_cases hk : k0 = k
    · simp [updateA, hk]
    · simp [lookupA, hk] at h
      simp [updateA, hk, ih h]

theorem mem_updateA {α : Type} (l : List (Nat × α)) (k : Nat) (v : α) (p : Nat × α)
    (hp : p ∈ updateA l k v) : p = (k, v) ∨ p ∈ l := by
  induction l with
  | nil => simp [updateA] at hp; simp [hp]
  | cons q rest ih =>
    obtain ⟨k0, v0⟩ := q
    by_cases hk : k0 = k
    · simp [updateA, hk] at hp
      rcases hp with h | h
      · exact Or.inl h
      · exact Or.inr (List.mem_cons_of_mem _ h)
    · simp [updateA, hk] at hp
      rcases hp with h | h
      · exact Or.inr (by simp [h])
      · rcases ih h with h' | h'
        · exact Or.inl h'
        · exact Or.inr (List.mem_cons_of_mem _ h')

theorem getEntity_setEntity_self (w : World) (e : Entity) (d : EntityData) :
    getEntity (setEntity w e d) e = some d :=
  lookupA_updateA_self w.entities e d

theorem getEntity_setEntity_ne (w : World) (e x : Entity) (d : EntityData)
    (h : x ≠ e) : getEntity (setEntity w e d) x = getEntity w x :=
  lookupA_updateA_ne w.entities e x d h

/-- The visibility rewrite a broadcast applies to a child record when the
child matches the continue query; identity otherwise. -/
def visTouch (v : Visibility) (d : EntityData) : EntityData :=
  if d.isContinue && d.visibility.isSome then { d with visibility := some v } else d

theorem visTouch_idem (v : Visibility) (d : EntityData) :
    visTouch v (visTouch v d) = visTouch v d := by
  unfold visTouch
  by_cases h : (d.isContinue && d.visibility.isSome) = true
  · simp [h]
  · simp [h]

theorem getEntity_setChildVis (w : World) (v : Visibility) (c x : Entity) :
    getEntity (setChildVis w v c) x =
      if x = c then (getEntity w x).map (visTouch v) else getEntity w x := by
  unfold setChildVis
  cases hc : getEntity w c with
  | none =>
    by_cases hxc : x = c
    · subst hxc
      simp [hc]
    · simp [hxc]
  | some dc =>
    by_cases hcond : (dc.isContinue && dc.visibility.isSome) = true
    · simp only [hcond, if_true]
      by_cases hxc : x = c
      · subst hxc
        simp [getEntity_setEntity_self, hc, visTouch, hcond]
      · simp [getEntity_setEntity_ne w c x _ hxc, hxc]
    · simp only [hcond, if_false]
      by_cases hxc : x = c
      · subst hxc
        simp [hc, visTouch, hcond]
      · simp [hxc]

theorem getEntity_foldl_setChildVis (cs : List Entity) (v : Visibility) (w : World)
    (x : Entity) :
    getEntity (cs.foldl (fun acc c => setChildVis acc v c) w) x =
      if x ∈ cs then (getEntity w x).map (visTouch v) else getEntity w x := by
  induction cs generalizing w with
  | nil => simp
  | cons c cs ih =>
    rw [List.foldl_cons, ih]
    by_cases hx : x ∈ cs
    · simp only [hx, if_true, List.mem_cons, or_true, getEntity_setChildVis]
      by_cases hxc : x = c
      · subst hxc
        simp only [if_true]
        cases hw : getEntity w x <;> simp [hw, Function.comp, visTouch_idem]
      · simp [hxc]
    · by_cases hxc : x = c
      · subst hxc
        simp [getEntity_setChildVis, hx]
      · simp [getEntity_setChildVis, hxc, hx]

theorem getEntity_applyVisEvent (w : World) (ev : UpdateContinueVis) (x : Entity) :
    getEntity (applyVisEvent w ev) x =
      if isTextBox w ev.entity = true ∧ x ∈ childrenOf w ev.entity
      then (getEntity w x).map (visTouch ev.visibility) else getEntity w x := by
  unfold applyVisEvent
  cases ht : getEntity w ev.entity with
  | none => simp [isTextBox, ht]
  | some d =>
    by_cases htb : d.textBox.isSome = true
    · simp only [htb, if_true]
      rw [getEntity_foldl_setChildVis]
      simp [isTextBox, ht, htb, childrenOf]
    · simp [htb, isTextBox, ht]

/-- The fields a visibility broadcast can never touch. -/
def SameButEntities (w w' : World) : Prop :=
  w'.nextId = w.nextId ∧ w'.systems = w.systems ∧ w'.nextSystem = w.nextSystem ∧
  w'.visEvents = w.visEvents ∧ w'.fragEvents = w.fragEvents ∧
  w'.endEvents = w.endEvents

theorem sameButEntities_refl (w : World) : SameButEntities w w :=
  ⟨rfl, rfl, rfl, rfl, rfl, rfl⟩

theorem sameButEntities_trans {w1 w2 w3 : World}
    (h1 : SameButEntities w1 w2) (h2 : SameButEntities w2 w3) :
    SameButEntities w1 w3 := by
  obtain ⟨a1, b1, c1, d1, e1, f1⟩ := h1
  obtain ⟨a2, b2, c2, d2, e2, f2⟩ := h2
  exact ⟨a2.trans a1, b2.trans b1, c2.trans c1, d2.trans d1, e2.trans e1, f2.trans f1⟩

theorem sameButEntities_setChildVis (w : World) (v : Visibility) (c : Entity) :
    SameButEntities w (setChildVis w v c) := by
  unfold setChildVis
  cases getEntity w c with
  | none => exact sameButEntities_refl w
  | some d =>
    by_cases hcond : (d.isContinue && d.visibility.isSome) = true
    · simp only [hcond, if_true]
      exact ⟨rfl, rfl, rfl, rfl, rfl, rfl⟩
    · simp only [hcond, if_false]
      exact sameButEntities_refl w

theorem sameButEntities_foldl_setChildVis (cs : List Entity) (v : Visibility)
    (w : World) :
    SameButEntities w (cs.foldl (fun acc c => setChildVis acc v c) w) := by
  induction cs generalizing w with
  | nil => exact sameButEntities_refl w
  | cons c cs ih =>
    rw [List.foldl_cons]
    exact sameButEntities_trans (sameButEntities_setChildVis w v c) (ih _)

theorem sameButEntities_applyVisEvent (w : World) (ev : UpdateContinueVis) :
    SameButEntities w (applyVisEvent w ev) := by
  unfold applyVisEvent
  cases getEntity w ev.entity with
  | none => exact sameButEntities_refl w
  | some d =>
    by_cases htb : d.textBox.isSome = true
    · simp only [htb, if_true]
      exact sameButEntities_foldl_setChildVis _ _ _
    · simp only [htb, if_false]
      exact sameButEntities_refl w

theorem keys_setChildVis (w : World) (v : Visibility) (c : Entity) :
    (setChildVis w v c).entities.map Prod.fst = w.entities.map Prod.fst := by
  unfold setChildVis
  cases hc : getEntity w c with
  | none => rfl
  | some d =>
    by_cases hcond : (d.isContinue && d.visibility.isSome) = true
    · simp only [hcond, if_true]
      exact updateA_keys w.entities c _ d hc
    · simp [hcond]

theorem keys_foldl_setChildVis (cs : List Entity) (v : Visibility) (w : World) :
    ((cs.foldl (fun acc c => setChildVis acc v c) w).entities.map Prod.fst) =
      w.entities.map Prod.fst := by
  induction cs generalizing w with
  | nil => rfl
  | cons c cs ih =>
    rw [List.foldl_cons, ih, keys_setChildVis]

theorem keys_applyVisEvent (w : World) (ev : UpdateContinueVis) :
    (applyVisEvent w ev).entities.map Prod.fst = w.entities.map Prod.fst := by
  unfold applyVisEvent
  cases getEntity w ev.entity with
  | none => rfl
  | some d =>
    by_cases htb : d.textBox.isSome = true
    · simp only [htb, if_true]
      exact keys_foldl_setChildVis _ _ _
    · simp [htb]

theorem updateA_append_right {α : Type} (l m : List (Nat × α)) (k : Nat) (v : α)
    (h : lookupA l k = none) : updateA (l ++ m) k v = l ++ updateA m k v := by
  induction l with
  | nil => simp
  | cons p rest ih =>
    obtain ⟨k0, v0⟩ := p
    by_cases hk : k0 = k
    · simp [lookupA, hk] at h
    · simp [lookupA, hk] at h
      simp [updateA, hk, ih h]

theorem bundleOf_eq_none_iff (w : World) (t : Entity) :
    bundleOf w t = none ↔ isTextBox w t = false := by
  unfold bundleOf isTextBox
  cases getEntity w t with
  | none => simp
  | some d => cases d.textBox <;> simp

/-- A fragment referencing an entity without a `TextBox` component makes the
spawn pass abort with the unwrap error. -/
theorem spawnSectionFrag_err (w : World) (ev : FragmentEvent)
    (hb : bundleOf w ev.data.textbox = none) :
    spawnSectionFrag w ev = Except.error (noTextboxMsg ev.data.textbox) := by
  have hb2 : bundleOf
      { w with entities := w.entities ++ [(w.nextId, {})], nextId := w.nextId + 1,
               systems := w.systems ++
                 [(w.nextSystem, Handler.scrollEnd w.nextId ev.data.textbox ev.endTok)],
               nextSystem := w.nextSystem + 1 } ev.data.textbox = none := by
    unfold bundleOf getEntity at hb ⊢
    cases hw : lookupA w.entities ev.data.textbox with
    | some dt =>
      rw [hw] at hb
      rw [lookupA_append_of_some w.entities _ ev.data.textbox dt hw]
      exact hb
    | none =>
      rw [lookupA_append_of_none w.entities _ ev.data.textbox hw]
      by_cases hx : w.nextId = ev.data.textbox
      · simp [lookupA, hx]
      · simp [lookupA, hx]
  unfold spawnSectionFrag freshEntityId registerSystem
  simp only [hb2]

/-- Structural description of handler A on a live section: handler B is
registered under the fresh system id, the section is armed with
`(AwaitClear, OnClear)`, and a Show request is appended. -/
theorem runScrollEnd_ok (w : World) (e tb : Entity) (tok : EndToken)
    (d : EntityData) (he : getEntity w e = some d) :
    runScrollEnd w e tb tok = Except.ok
      { entities := updateA w.entities e
          { d with awaitClear := true, onClear := some w.nextSystem },
        nextId := w.nextId,
        systems := w.systems ++ [(w.nextSystem, Handler.clear e tb tok)],
        nextSystem := w.nextSystem + 1,
        visEvents := w.visEvents ++ [⟨tb, Visibility.Visible⟩],
        fragEvents := w.fragEvents, endEvents := w.endEvents } := by
  unfold runScrollEnd registerSystem
  have he2 : lookupA w.entities e = some d := he
  simp only [getEntity, he2, setEntity]

/-- Handler A panics (B0003) when its section was despawned before delivery. -/
theorem runScrollEnd_err (w : World) (e tb : Entity) (tok : EndToken)
    (he : getEntity w e = none) :
    runScrollEnd w e tb tok = Except.error (insertDespawnedMsg e) := by
  unfold runScrollEnd registerSystem
  have he2 : lookupA w.entities e = none := he
  simp only [getEntity, he2]

theorem lookupA_despawnList (l : List (Entity × EntityData)) (e x : Entity) :
    lookupA ((l.filter (fun p => p.1 ≠ e)).map (dropChild e)) x =
      if x = e then none
      else (lookupA l x).map
        (fun d => { d with children := d.children.filter (fun c => c ≠ e) }) := by
  induction l with
  | nil =>
    by_cases hx : x = e <;> simp [lookupA, hx]
  | cons p rest ih =>
    obtain ⟨k, v⟩ := p
    by_cases hk : k = e
    · have hfk : (decide (k ≠ e)) = false := by simp [hk]
      simp only [List.filter_cons, hfk, Bool.false_eq_true, if_false, ih]
      by_cases hx : x = e
      · simp [hx]
      · have hkx : ¬k = x := by
          intro hc
          exact hx (hc ▸ hk)
        simp [lookupA, hkx, hx]
    · have htk : (decide (k ≠ e)) = true := by simp [hk]
      simp only [List.filter_cons, htk, if_true, List.map_cons]
      by_cases hkx : k = x
      · subst hkx
        have hx : ¬k = e := hk
        simp [lookupA, dropChild, hx]
      · simp only [lookupA, dropChild, hkx, if_false, ih]

theorem spawnSectionFrag_ok (w : World) (ev : FragmentEvent) (b : Bundle)
    (dt : EntityData)
    (hlt : ∀ p ∈ w.entities, p.1 < w.nextId)
    (ht : getEntity w ev.data.textbox = some dt)
    (hb : dt.textBox = some b) :
    spawnSectionFrag w ev = Except.ok
      { entities := updateA w.entities ev.data.textbox
            { dt with children := dt.children ++ [w.nextId] } ++
          [(w.nextId, { sec := some ev.data.sec, scroll := true,
                        onScrollEnd := some w.nextSystem, extra := some b })],
        nextId := w.nextId + 1,
        systems := w.systems ++
          [(w.nextSystem, Handler.scrollEnd w.nextId ev.data.textbox ev.endTok)],
        nextSystem := w.nextSystem + 1,
        visEvents := w.visEvents, fragEvents := w.fragEvents,
        endEvents := w.endEvents } := by
  have hnone : lookupA w.entities w.nextId = none :=
    lookupA_none_of_lt w.entities w.nextId hlt
  have ht' : lookupA (w.entities ++ [(w.nextId, ({} : EntityData))]) ev.data.textbox =
      some dt := lookupA_append_of_some w.entities _ ev.data.textbox dt ht
  have hnid : lookupA (w.entities ++ [(w.nextId, ({} : EntityData))]) w.nextId =
      some ({} : EntityData) := by
    rw [lookupA_append_of_none w.entities _ w.nextId hnone]
    simp [lookupA]
  simp only [spawnSectionFrag, freshEntityId, registerSystem, insertWith, bundleOf,
    getEntity, setEntity]
  rw [ht']
  simp only [Option.some_bind, hb]
  rw [hnid]
  have hstep1 : updateA (w.entities ++ [(w.nextId, ({} : EntityData))]) w.nextId
      { sec := some ev.data.sec, scroll := true,
        onScrollEnd := some w.nextSystem, extra := some b } =
      w.entities ++ [(w.nextId,
        { sec := some ev.data.sec, scroll := true,
          onScrollEnd := some w.nextSystem, extra := some b })] := by
    rw [updateA_append_right w.entities _ w.nextId _ hnone]
    simp [updateA]
  simp only [hstep1]
  have ht2 : lookupA (w.entities ++ [(w.nextId,
      ({ sec := some ev.data.sec, scroll := true,
         onScrollEnd := some w.nextSystem, extra := some b } : EntityData))])
      ev.data.textbox = some dt :=
    lookupA_append_of_some w.entities _ ev.data.textbox dt ht
  rw [ht2]
  simp only [updateA_append_left w.entities _ ev.data.textbox _ dt ht, hb]

theorem visTouch_textBox (v : Visibility) (d : EntityData) :
    (visTouch v d).textBox = d.textBox := by
  unfold visTouch
  split <;> rfl

theorem visTouch_children (v : Visibility) (d : EntityData) :
    (visTouch v d).children = d.children := by
  unfold visTouch
  split <;> rfl

theorem visTouch_awaitClear (v : Visibility) (d : EntityData) :
    (visTouch v d).awaitClear = d.awaitClear := by
  unfold visTouch
  split <;> rfl

theorem visTouch_onClear (v : Visibility) (d : EntityData) :
    (visTouch v d).onClear = d.onClear := by
  unfold visTouch
  split <;> rfl

theorem visTouch_onScrollEnd (v : Visibility) (d : EntityData) :
    (visTouch v d).onScrollEnd = d.onScrollEnd := by
  unfold visTouch
  split <;> rfl

theorem visTouch_continueVis (v : Visibility) (d : EntityData) :
    ((visTouch v d).isContinue && (visTouch v d).visibility.isSome) =
      (d.isContinue && d.visibility.isSome) := by
  unfold visTouch
  by_cases h : (d.isContinue && d.visibility.isSome) = true
  · have h1 := h
    rw [Bool.and_eq_true] at h1
    simp [h, h1.1, h1.2]
  · simp [h]

theorem isTextBox_applyVisEvent (w : World) (ev : UpdateContinueVis) (t : Entity) :
    isTextBox (applyVisEvent w ev) t = isTextBox w t := by
  unfold isTextBox
  rw [getEntity_applyVisEvent]
  by_cases hcond : isTextBox w ev.entity = true ∧ t ∈ childrenOf w ev.entity
  · simp only [hcond, if_true]
    cases getEntity w t <;> simp [visTouch_textBox]
  · simp [hcond]

theorem childrenOf_applyVisEvent (w : World) (ev : UpdateContinueVis) (t : Entity) :
    childrenOf (applyVisEvent w ev) t = childrenOf w t := by
  unfold childrenOf
  rw [getEntity_applyVisEvent]
  by_cases hcond : isTextBox w ev.entity = true ∧ t ∈ childrenOf w ev.entity
  · simp only [hcond, if_true]
    cases getEntity w t <;> simp [visTouch_children]
  · simp [hcond]

theorem awaiting_applyVisEvent (w : World) (ev : UpdateContinueVis) (e : Entity) :
    awaiting (applyVisEvent w ev) e = awaiting w e := by
  unfold awaiting
  rw [getEntity_applyVisEvent]
  by_cases hcond : isTextBox w ev.entity = true ∧ e ∈ childrenOf w ev.entity
  · simp only [hcond, if_true]
    cases getEntity w e <;> simp [visTouch_awaitClear]
  · simp [hcond]

theorem isContinueVis_applyVisEvent (w : World) (ev : UpdateContinueVis) (c : Entity) :
    isContinueVis (applyVisEvent w ev) c = isContinueVis w c := by
  unfold isContinueVis
  rw [getEntity_applyVisEvent]
  by_cases hcond : isTextBox w ev.entity = true ∧ c ∈ childrenOf w ev.entity
  · simp only [hcond, if_true]
    cases getEntity w c <;> simp [visTouch_continueVis]
  · simp [hcond]

theorem appliedVis_cons (t : Entity) (v : Option Visibility) (ev : UpdateContinueVis)
    (evs : List UpdateContinueVis) :
    appliedVis t v (ev :: evs) =
      appliedVis t (if ev.entity = t then some ev.visibility else v) evs := by
  unfold appliedVis
  rw [List.foldl_cons]

/-- Replaying the queue on the current visibility computes exactly what the
in-order drain leaves on an indicator child, provided the child hangs under a
unique textbox. -/
theorem visOf_foldl_applyVis (evs : List UpdateContinueVis) (w : World) (t c : Entity)
    (huniq : ∀ t', isTextBox w t' = true → c ∈ childrenOf w t' → t' = t)
    (ht : isTextBox w t = true) (hc : c ∈ childrenOf w t)
    (hcv : isContinueVis w c = true) :
    visOf (evs.foldl applyVisEvent w) c = appliedVis t (visOf w c) evs := by
  induction evs generalizing w with
  | nil => simp [appliedVis]
  | cons ev evs ih =>
    rw [List.foldl_cons, appliedVis_cons]
    have ht1 : isTextBox (applyVisEvent w ev) t = true := by
      rw [isTextBox_applyVisEvent]
      exact ht
    have hc1 : c ∈ childrenOf (applyVisEvent w ev) t := by
      rw [childrenOf_applyVisEvent]
      exact hc
    have hcv1 : isContinueVis (applyVisEvent w ev) c = true := by
      rw [isContinueVis_applyVisEvent]
      exact hcv
    have huniq1 : ∀ t', isTextBox (applyVisEvent w ev) t' = true →
        c ∈ childrenOf (applyVisEvent w ev) t' → t' = t := by
      intro t' h1 h2
      rw [isTextBox_applyVisEvent] at h1
      rw [childrenOf_applyVisEvent] at h2
      exact huniq t' h1 h2
    rw [ih (applyVisEvent w ev) huniq1 ht1 hc1 hcv1]
    by_cases hev : ev.entity = t
    · have hcond : isTextBox w ev.entity = true ∧ c ∈ childrenOf w ev.entity := by
        rw [hev]
        exact ⟨ht, hc⟩
      have hvis : visOf (applyVisEvent w ev) c = some ev.visibility := by
        unfold visOf
        rw [getEntity_applyVisEvent]
        simp only [hcond, if_true]
        unfold isContinueVis at hcv
        cases hg : getEntity w c with
        | none => rw [hg] at hcv; simp at hcv
        | some dc =>
          rw [hg] at hcv
          simp at hcv
          simp [visTouch, hcv.1, hcv.2]
      rw [hvis, hev]
      simp
    · have hcond : ¬(isTextBox w ev.entity = true ∧ c ∈ childrenOf w ev.entity) := by
        intro hcc
        exact hev (huniq ev.entity hcc.1 hcc.2)
      have hvis : visOf (applyVisEvent w ev) c = visOf w c := by
        unfold visOf
        rw [getEntity_applyVisEvent]
        simp [hcond]
      rw [hvis]
      simp [hev]

theorem getEntity_mem (w : World) (t : Entity) (d : EntityData)
    (h : getEntity w t = some d) : (t, d) ∈ w.entities :=
  lookupA_mem w.entities t d h

theorem childrenOf_mem_getEntity (w : World) (t c : Entity)
    (h : c ∈ childrenOf w t) : ∃ d, getEntity w t = some d ∧ c ∈ d.children := by
  unfold childrenOf at h
  cases hg : getEntity w t with
  | none => rw [hg] at h; simp at h
  | some d => rw [hg] at h; exact ⟨d, rfl, h⟩

/-- Under well-formedness every entity hangs under at most one parent. -/
theorem uniqueParent (w : World) (hwf : WF w) (t t' c : Entity)
    (h : c ∈ childrenOf w t) (h' : c ∈ childrenOf w t') : t = t' := by
  obtain ⟨d, hd, hcd⟩ := childrenOf_mem_getEntity w t c h
  obtain ⟨d', hd', hcd'⟩ := childrenOf_mem_getEntity w t' c h'
  exact hwf.2.2.2.2 (t, d) (getEntity_mem w t d hd) (t', d') (getEntity_mem w t' d' hd')
    c hcd hcd'

/-- Two entity records that agree on everything except possibly visibility. -/
def VisOnlyRel (d d' : EntityData) : Prop :=
  d'.textBox = d.textBox ∧ d'.isContinue = d.isContinue ∧ d'.children = d.children ∧
  d'.sec = d.sec ∧ d'.scroll = d.scroll ∧ d'.onScrollEnd = d.onScrollEnd ∧
  d'.awaitClear = d.awaitClear ∧ d'.onClear = d.onClear ∧ d'.extra = d.extra

theorem visOnlyRel_refl (d : EntityData) : VisOnlyRel d d :=
  ⟨rfl, rfl, rfl, rfl, rfl, rfl, rfl, rfl, rfl⟩

theorem visOnlyRel_visTouch (v : Visibility) (d : EntityData) :
    VisOnlyRel d (visTouch v d) := by
  unfold visTouch
  split
  · exact ⟨rfl, rfl, rfl, rfl, rfl, rfl, rfl, rfl, rfl⟩
  · exact visOnlyRel_refl d

theorem visOnlyRel_trans {d1 d2 d3 : EntityData}
    (h1 : VisOnlyRel d1 d2) (h2 : VisOnlyRel d2 d3) : VisOnlyRel d1 d3 := by
  obtain ⟨a1, b1, c1, e1, f1, g1, i1, j1, k1⟩ := h1
  obtain ⟨a2, b2, c2, e2, f2, g2, i2, j2, k2⟩ := h2
  exact ⟨a2.trans a1, b2.trans b1, c2.trans c1, e2.trans e1, f2.trans f1,
    g2.trans g1, i2.trans i1, j2.trans j1, k2.trans k1⟩

theorem getEntity_applyVisEvent_rel (w : World) (ev : UpdateContinueVis) (x : Entity) :
    (getEntity w x = none ∧ getEntity (applyVisEvent w ev) x = none) ∨
    (∃ d d', getEntity w x = some d ∧ getEntity (applyVisEvent w ev) x = some d' ∧
      VisOnlyRel d d') := by
  rw [getEntity_applyVisEvent]
  cases hg : getEntity w x with
  | none =>
    left
    constructor
    · rfl
    · split <;> simp
  | some d =>
    right
    split
    · exact ⟨d, visTouch ev.visibility d, rfl, by simp, visOnlyRel_visTouch _ d⟩
    · exact ⟨d, d, rfl, by simp, visOnlyRel_refl d⟩

theorem getEntity_foldl_applyVis_rel (evs : List UpdateContinueVis) (w : World)
    (x : Entity) :
    (getEntity w x = none ∧ getEntity (evs.foldl applyVisEvent w) x = none) ∨
    (∃ d d', getEntity w x = some d ∧
      getEntity (evs.foldl applyVisEvent w) x = some d' ∧ VisOnlyRel d d') := by
  induction evs generalizing w with
  | nil =>
    cases hg : getEntity w x with
    | none => exact Or.inl ⟨rfl, by simp [hg]⟩
    | some d => exact Or.inr ⟨d, d, rfl, by simp [hg], visOnlyRel_refl d⟩
  | cons ev evs ih =>
    rw [List.foldl_cons]
    rcases getEntity_applyVisEvent_rel w ev x with ⟨h1, h2⟩ | ⟨d, d', h1, h2, hrel⟩
    · rcases ih (applyVisEvent w ev) with ⟨h3, h4⟩ | ⟨d, d', h3, h4, _⟩
      · exact Or.inl ⟨h1, h4⟩
      · rw [h2] at h3
        simp at h3
    · rcases ih (applyVisEvent w ev) with ⟨h3, h4⟩ | ⟨d2, d3, h3, h4, hrel2⟩
      · rw [h2] at h3
        simp at h3
      · rw [h2] at h3
        have hd : d' = d2 := by
          injection h3
        subst hd
        exact Or.inr ⟨d, d3, h1, h4, visOnlyRel_trans hrel hrel2⟩

theorem keys_foldl_applyVis (evs : List UpdateContinueVis) (w : World) :
    ((evs.foldl applyVisEvent w).entities.map Prod.fst) = w.entities.map Prod.fst := by
  induction evs generalizing w with
  | nil => rfl
  | cons ev evs ih =>
    rw [List.foldl_cons, ih, keys_applyVisEvent]

theorem isTextBox_foldl_applyVis (evs : List UpdateContinueVis) (w : World)
    (t : Entity) : isTextBox (evs.foldl applyVisEvent w) t = isTextBox w t := by
  induction evs generalizing w with
  | nil => rfl
  | cons ev evs ih =>
    rw [List.foldl_cons, ih, isTextBox_applyVisEvent]

theorem childrenOf_foldl_applyVis (evs : List UpdateContinueVis) (w : World)
    (t : Entity) : childrenOf (evs.foldl applyVisEvent w) t = childrenOf w t := by
  induction evs generalizing w with
  | nil => rfl
  | cons ev evs ih =>
    rw [List.foldl_cons, ih, childrenOf_applyVisEvent]

theorem awaiting_foldl_applyVis (evs : List UpdateContinueVis) (w : World)
    (e : Entity) : awaiting (evs.foldl applyVisEvent w) e = awaiting w e := by
  induction evs generalizing w with
  | nil => rfl
  | cons ev evs ih =>
    rw [List.foldl_cons, ih, awaiting_applyVisEvent]

theorem isContinueVis_foldl_applyVis (evs : List UpdateContinueVis) (w : World)
    (c : Entity) : isContinueVis (evs.foldl applyVisEvent w) c = isContinueVis w c := by
  induction evs generalizing w with
  | nil => rfl
  | cons ev evs ih =>
    rw [List.foldl_cons, ih, isContinueVis_applyVisEvent]

theorem sameButEntities_foldl_applyVis (evs : List UpdateContinueVis) (w : World) :
    SameButEntities w (evs.foldl applyVisEvent w) := by
  induction evs generalizing w with
  | nil => exact sameButEntities_refl w
  | cons ev evs ih =>
    rw [List.foldl_cons]
    exact sameButEntities_trans (sameButEntities_applyVisEvent w ev) (ih _)

theorem appliedVis_nil (t : Entity) (v : Option Visibility) : appliedVis t v [] = v :=
  rfl

theorem visEvents_drain (w : World) : (update_continue_visibility w).visEvents = [] :=
  rfl

theorem getEntity_drain (w : World) (x : Entity) :
    getEntity (update_continue_visibility w) x =
      getEntity (w.visEvents.foldl applyVisEvent w) x :=
  rfl

theorem isTextBox_drain (w : World) (t : Entity) :
    isTextBox (update_continue_visibility w) t = isTextBox w t :=
  isTextBox_foldl_applyVis w.visEvents w t

theorem childrenOf_drain (w : World) (t : Entity) :
    childrenOf (update_continue_visibility w) t = childrenOf w t :=
  childrenOf_foldl_applyVis w.visEvents w t

theorem awaiting_drain (w : World) (e : Entity) :
    awaiting (update_continue_visibility w) e = awaiting w e :=
  awaiting_foldl_applyVis w.visEvents w e

theorem isContinueVis_drain (w : World) (c : Entity) :
    isContinueVis (update_continue_visibility w) c = isContinueVis w c :=
  isContinueVis_foldl_applyVis w.visEvents w c

theorem keys_drain (w : World) :
    (update_continue_visibility w).entities.map Prod.fst = w.entities.map Prod.fst :=
  keys_foldl_applyVis w.visEvents w

theorem systems_drain (w : World) :
    (update_continue_visibility w).systems = w.systems :=
  (sameButEntities_foldl_applyVis w.visEvents w).2.1

theorem nextSystem_drain (w : World) :
    (update_continue_visibility w).nextSystem = w.nextSystem :=
  (sameButEntities_foldl_applyVis w.visEvents w).2.2.1

theorem nextId_drain (w : World) :
    (update_continue_visibility w).nextId = w.nextId :=
  (sameButEntities_foldl_applyVis w.visEvents w).1

theorem indicatorTarget_drain (w : World) (t : Entity) :
    indicatorTarget (update_continue_visibility w) t = indicatorTarget w t := by
  unfold indicatorTarget
  rw [childrenOf_drain]
  simp only [awaiting_drain]

theorem WF_drain (w : World) (hwf : WF w) : WF (update_continue_visibility w) := by
  obtain ⟨h1, h2, h3, h4, h5⟩ := hwf
  have hkeys := keys_drain w
  have hnd' : ((update_continue_visibility w).entities.map Prod.fst).Nodup := by
    rw [hkeys]
    exact h3
  have hmem : ∀ p, p ∈ (update_continue_visibility w).entities →
      ∃ d, (p.1, d) ∈ w.entities ∧ VisOnlyRel d p.2 := by
    intro p hp
    have hlk : lookupA (update_continue_visibility w).entities p.1 = some p.2 :=
      mem_lookupA _ _ _ hnd' hp
    have hlk' : getEntity (w.visEvents.foldl applyVisEvent w) p.1 = some p.2 := by
      rw [← getEntity_drain]
      exact hlk
    rcases getEntity_foldl_applyVis_rel w.visEvents w p.1 with ⟨ha, hb⟩ | ⟨d, d', ha, hb, hrel⟩
    · rw [hlk'] at hb
      simp at hb
    · rw [hlk'] at hb
      have hd : d' = p.2 := by
        injection hb with hinj
        exact hinj.symm
      subst hd
      exact ⟨d, getEntity_mem w p.1 d ha, hrel⟩
  refine ⟨?_, ?_, hnd', ?_, ?_⟩
  · intro p hp
    obtain ⟨d, hd, _⟩ := hmem p hp
    rw [nextId_drain]
    exact h1 (p.1, d) hd
  · intro p hp
    rw [systems_drain] at hp
    rw [nextSystem_drain]
    exact h2 p hp
  · intro p hp c hc
    obtain ⟨d, hd, hrel⟩ := hmem p hp
    rw [nextId_drain]
    rw [hrel.2.2.1] at hc
    exact h4 (p.1, d) hd c hc
  · intro p hp q hq c hcp hcq
    obtain ⟨dp, hdp, hrelp⟩ := hmem p hp
    obtain ⟨dq, hdq, hrelq⟩ := hmem q hq
    rw [hrelp.2.2.1] at hcp
    rw [hrelq.2.2.1] at hcq
    exact h5 (p.1, dp) hdp (q.1, dq) hdq c hcp hcq

theorem stageVisInv_drain (w : World) (hwf : WF w) (hinv : StageVisInv w) :
    StageVisInv (update_continue_visibility w) := by
  intro t c ht hc hcv
  rw [isTextBox_drain] at ht
  rw [childrenOf_drain] at hc
  rw [isContinueVis_drain] at hcv
  have huniq : ∀ t', isTextBox w t' = true → c ∈ childrenOf w t' → t' = t := by
    intro t' _ h2
    exact uniqueParent w hwf t' t c h2 hc
  have hv : visOf (update_continue_visibility w) c =
      appliedVis t (visOf w c) w.visEvents :=
    visOf_foldl_applyVis w.visEvents w t c huniq ht hc hcv
  rw [visEvents_drain, appliedVis_nil, hv, hinv t c ht hc hcv, indicatorTarget_drain]

/-- The world produced by handler A on a live section. -/
def armWorld (w : World) (e tb : Entity) (tok : EndToken) (d : EntityData) : World :=
  { entities := updateA w.entities e
      { d with awaitClear := true, onClear := some w.nextSystem },
    nextId := w.nextId,
    systems := w.systems ++ [(w.nextSystem, Handler.clear e tb tok)],
    nextSystem := w.nextSystem + 1,
    visEvents := w.visEvents ++ [⟨tb, Visibility.Visible⟩],
    fragEvents := w.fragEvents, endEvents := w.endEvents }

theorem runScrollEnd_ok_inv (w w' : World) (e tb : Entity) (tok : EndToken)
    (hrun : runScrollEnd w e tb tok = Except.ok w') :
    ∃ d, getEntity w e = some d ∧ w' = armWorld w e tb tok d := by
  cases hg : getEntity w e with
  | none =>
    rw [runScrollEnd_err w e tb tok hg] at hrun
    exact absurd hrun (by simp)
  | some d =>
    rw [runScrollEnd_ok w e tb tok d hg] at hrun
    injection hrun with h
    exact ⟨d, rfl, h.symm⟩

theorem getEntity_armWorld (w : World) (e tb : Entity) (tok : EndToken)
    (d : EntityData) (x : Entity) :
    getEntity (armWorld w e tb tok d) x =
      if x = e then some { d with awaitClear := true, onClear := some w.nextSystem }
      else getEntity w x := by
  unfold armWorld getEntity
  by_cases hx : x = e
  · subst hx
    simp [lookupA_updateA_self]
  · simp [hx, lookupA_updateA_ne w.entities e x _ hx]

theorem isTextBox_armWorld (w : World) (e tb : Entity) (tok : EndToken)
    (d : EntityData) (he : getEntity w e = some d) (t : Entity) :
    isTextBox (armWorld w e tb tok d) t = isTextBox w t := by
  unfold isTextBox
  rw [getEntity_armWorld]
  by_cases ht : t = e
  · subst ht
    rw [he]
    simp
  · simp [ht]

theorem childrenOf_armWorld (w : World) (e tb : Entity) (tok : EndToken)
    (d : EntityData) (he : getEntity w e = some d) (t : Entity) :
    childrenOf (armWorld w e tb tok d) t = childrenOf w t := by
  unfold childrenOf
  rw [getEntity_armWorld]
  by_cases ht : t = e
  · subst ht
    rw [he]
    simp
  · simp [ht]

theorem isContinueVis_armWorld (w : World) (e tb : Entity) (tok : EndToken)
    (d : EntityData) (he : getEntity w e = some d) (c : Entity) :
    isContinueVis (armWorld w e tb tok d) c = isContinueVis w c := by
  unfold isContinueVis
  rw [getEntity_armWorld]
  by_cases hc : c = e
  · subst hc
    rw [he]
    simp
  · simp [hc]

theorem visOf_armWorld (w : World) (e tb : Entity) (tok : EndToken)
    (d : EntityData) (he : getEntity w e = some d) (c : Entity) :
    visOf (armWorld w e tb tok d) c = visOf w c := by
  unfold visOf
  rw [getEntity_armWorld]
  by_cases hc : c = e
  · subst hc
    rw [he]
    simp
  · simp [hc]

theorem awaiting_armWorld (w : World) (e tb : Entity) (tok : EndToken)
    (d : EntityData) (x : Entity) :
    awaiting (armWorld w e tb tok d) x = if x = e then true else awaiting w x := by
  unfold awaiting
  rw [getEntity_armWorld]
  by_cases hx : x = e
  · simp [hx]
  · simp [hx]

theorem appliedVis_append (t : Entity) (v : Option Visibility)
    (evs1 evs2 : List UpdateContinueVis) :
    appliedVis t v (evs1 ++ evs2) = appliedVis t (appliedVis t v evs1) evs2 := by
  unfold appliedVis
  rw [List.foldl_append]

theorem appliedVis_single_eq (t : Entity) (v : Option Visibility)
    (ev : UpdateContinueVis) (h : ev.entity = t) :
    appliedVis t v [ev] = some ev.visibility := by
  unfold appliedVis
  simp [h]

theorem appliedVis_single_ne (t : Entity) (v : Option Visibility)
    (ev : UpdateContinueVis) (h : ev.entity ≠ t) :
    appliedVis t v [ev] = v := by
  unfold appliedVis
  simp [h]

theorem any_congr_mem {α : Type} (l : List α) (f g : α → Bool)
    (h : ∀ x ∈ l, f x = g x) : l.any f = l.any g := by
  induction l with
  | nil => rfl
  | cons a l ih =>
    simp only [List.any_cons]
    rw [h a (List.mem_cons_self _ _), ih (fun x hx => h x (List.mem_cons_of_mem _ hx))]

theorem WF_armWorld (w : World) (e tb : Entity) (tok : EndToken) (d : EntityData)
    (hwf : WF w) (he : getEntity w e = some d) : WF (armWorld w e tb tok d) := by
  obtain ⟨h1, h2, h3, h4, h5⟩ := hwf
  have hmem : (e, d) ∈ w.entities := getEntity_mem w e d he
  have hmem' : ∀ p, p ∈ (armWorld w e tb tok d).entities →
      (p = (e, { d with awaitClear := true, onClear := some w.nextSystem }) ∨
        p ∈ w.entities) :=
    fun p hp => mem_updateA w.entities e _ p hp
  refine ⟨?_, ?_, ?_, ?_, ?_⟩
  · intro p hp
    rcases hmem' p hp with h | h
    · rw [h]
      exact h1 (e, d) hmem
    · exact h1 p h
  · intro p hp
    rcases List.mem_append.mp hp with h | h
    · exact Nat.lt_succ_of_lt (h2 p h)
    · simp at h
      rw [h]
      exact Nat.lt_succ_self _
  · have : (armWorld w e tb tok d).entities.map Prod.fst = w.entities.map Prod.fst :=
      updateA_keys w.entities e _ d he
    rw [this]
    exact h3
  · intro p hp c hc
    rcases hmem' p hp with h | h
    · rw [h] at hc
      exact h4 (e, d) hmem c hc
    · exact h4 p h c hc
  · intro p hp q hq c hcp hcq
    rcases hmem' p hp with h | h <;> rcases hmem' q hq with h' | h'
    · rw [h, h']
    · rw [h] at hcp ⊢
      exact h5 (e, d) hmem q h' c hcp hcq
    · rw [h'] at hcq ⊢
      exact h5 p h (e, d) hmem c hcp hcq
    · exact h5 p h q h' c hcp hcq

theorem stageVisInv_armWorld (w : World) (e tb : Entity) (tok : EndToken)
    (d : EntityData) (hwf : WF w) (hinv : StageVisInv w)
    (he : getEntity w e = some d) (hchild : e ∈ childrenOf w tb) :
    StageVisInv (armWorld w e tb tok d) := by
  intro t c ht hc hcv
  rw [isTextBox_armWorld w e tb tok d he] at ht
  rw [childrenOf_armWorld w e tb tok d he] at hc
  rw [isContinueVis_armWorld w e tb tok d he] at hcv
  have hvis : (armWorld w e tb tok d).visEvents =
      w.visEvents ++ [⟨tb, Visibility.Visible⟩] := rfl
  rw [hvis, appliedVis_append, visOf_armWorld w e tb tok d he]
  by_cases htb : t = tb
  · subst htb
    rw [appliedVis_single_eq t _ _ rfl]
    have htarget : indicatorTarget (armWorld w e t tok d) t = Visibility.Visible := by
      unfold indicatorTarget
      rw [childrenOf_armWorld w e t tok d he]
      have : (childrenOf w t).any (fun x => awaiting (armWorld w e t tok d) x) = true := by
        rw [List.any_eq_true]
        refine ⟨e, hchild, ?_⟩
        rw [awaiting_armWorld]
        simp
      rw [this]
      simp
    rw [htarget]
  · rw [appliedVis_single_ne t _ _ (fun hcc => htb (Eq.symm hcc)),
      hinv t c ht hc hcv]
    have htarget : indicatorTarget (armWorld w e tb tok d) t = indicatorTarget w t := by
      unfold indicatorTarget
      rw [childrenOf_armWorld w e tb tok d he]
      have hne : ∀ x ∈ childrenOf w t, awaiting (armWorld w e tb tok d) x = awaiting w x := by
        intro x hx
        rw [awaiting_armWorld]
        by_cases hxe : x = e
        · subst hxe
          exact absurd (uniqueParent w hwf t tb x hx hchild) htb
        · simp [hxe]
      rw [any_congr_mem _ _ _ hne]
    rw [htarget]

theorem awaiting_some (w : World) (e : Entity) (h : awaiting w e = true) :
    ∃ d, getEntity w e = some d ∧ d.awaitClear = true := by
  unfold awaiting at h
  cases hg : getEntity w e with
  | none => rw [hg] at h; simp at h
  | some d => rw [hg] at h; exact ⟨d, rfl, h⟩

theorem despawnEntity_eq_some (w : World) (e : Entity) (d0 : EntityData)
    (he : getEntity w e = some d0) :
    despawnEntity w e =
      { w with entities := (w.entities.filter (fun p => p.1 ≠ e)).map (dropChild e) } := by
  unfold despawnEntity
  rw [he]

theorem entities_runClear (w : World) (e tb : Entity) (tok : EndToken)
    (d0 : EntityData) (he : getEntity w e = some d0) :
    (runClear w e tb tok).entities =
      (w.entities.filter (fun p => p.1 ≠ e)).map (dropChild e) := by
  have he1 : getEntity { w with endEvents := w.endEvents ++ [tok] } e = some d0 := he
  simp only [runClear]
  rw [despawnEntity_eq_some _ e d0 he1]

theorem runClear_fields (w : World) (e tb : Entity) (tok : EndToken) :
    (runClear w e tb tok).endEvents = w.endEvents ++ [tok] ∧
    (runClear w e tb tok).visEvents = w.visEvents ++ [⟨tb, Visibility.Hidden⟩] ∧
    (runClear w e tb tok).fragEvents = w.fragEvents ∧
    (runClear w e tb tok).systems = w.systems ∧
    (runClear w e tb tok).nextSystem = w.nextSystem ∧
    (runClear w e tb tok).nextId = w.nextId := by
  simp only [runClear]
  unfold despawnEntity
  cases getEntity { w with endEvents := w.endEvents ++ [tok] } e <;>
    exact ⟨rfl, rfl, rfl, rfl, rfl, rfl⟩

theorem getEntity_runClear (w : World) (e tb : Entity) (tok : EndToken) (x : Entity)
    (d0 : EntityData) (he : getEntity w e = some d0) :
    getEntity (runClear w e tb tok) x =
      if x = e then none
      else (getEntity w x).map
        (fun d => { d with children := d.children.filter (fun c => c ≠ e) }) := by
  have h : getEntity (runClear w e tb tok) x =
      lookupA ((w.entities.filter (fun p => p.1 ≠ e)).map (dropChild e)) x := by
    unfold getEntity
    rw [entities_runClear w e tb tok d0 he]
  rw [h]
  exact lookupA_despawnList w.entities e x

theorem getEntity_runClear_absent (w : World) (e tb : Entity) (tok : EndToken)
    (x : Entity) (he : getEntity w e = none) :
    getEntity (runClear w e tb tok) x = getEntity w x := by
  simp only [runClear]
  unfold despawnEntity
  have he1 : getEntity { w with endEvents := w.endEvents ++ [tok] } e = none := he
  rw [he1]
  rfl

theorem childrenOf_runClear (w : World) (e tb : Entity) (tok : EndToken)
    (d0 : EntityData) (he : getEntity w e = some d0) (t : Entity) :
    childrenOf (runClear w e tb tok) t =
      if t = e then [] else (childrenOf w t).filter (fun c => c ≠ e) := by
  unfold childrenOf
  rw [getEntity_runClear w e tb tok t d0 he]
  by_cases ht : t = e
  · simp [ht]
  · simp only [ht, if_false]
    cases getEntity w t <;> simp

theorem isTextBox_runClear (w : World) (e tb : Entity) (tok : EndToken)
    (d0 : EntityData) (he : getEntity w e = some d0) (t : Entity) :
    isTextBox (runClear w e tb tok) t = if t = e then false else isTextBox w t := by
  unfold isTextBox
  rw [getEntity_runClear w e tb tok t d0 he]
  by_cases ht : t = e
  · simp [ht]
  · simp only [ht, if_false]
    cases getEntity w t <;> simp

theorem awaiting_runClear (w : World) (e tb : Entity) (tok : EndToken)
    (d0 : EntityData) (he : getEntity w e = some d0) (x : Entity) :
    awaiting (runClear w e tb tok) x = if x = e then false else awaiting w x := by
  unfold awaiting
  rw [getEntity_runClear w e tb tok x d0 he]
  by_cases hx : x = e
  · simp [hx]
  · simp only [hx, if_false]
    cases getEntity w x <;> simp

theorem isContinueVis_runClear (w : World) (e tb : Entity) (tok : EndToken)
    (d0 : EntityData) (he : getEntity w e = some d0) (c : Entity) :
    isContinueVis (runClear w e tb tok) c =
      if c = e then false else isContinueVis w c := by
  unfold isContinueVis
  rw [getEntity_runClear w e tb tok c d0 he]
  by_cases hc : c = e
  · simp [hc]
  · simp only [hc, if_false]
    cases getEntity w c <;> simp

theorem visOf_runClear (w : World) (e tb : Entity) (tok : EndToken)
    (d0 : EntityData) (he : getEntity w e = some d0) (c : Entity) :
    visOf (runClear w e tb tok) c = if c = e then none else visOf w c := by
  unfold visOf
  rw [getEntity_runClear w e tb tok c d0 he]
  by_cases hc : c = e
  · simp [hc]
  · simp only [hc, if_false]
    cases getEntity w c <;> simp

theorem mem_entities_runClear (w : World) (e tb : Entity) (tok : EndToken)
    (d0 : EntityData) (he : getEntity w e = some d0) (p : Entity × EntityData)
    (hp : p ∈ (runClear w e tb tok).entities) :
    ∃ q, q ∈ w.entities ∧ p.1 = q.1 ∧
      p.2.children = q.2.children.filter (fun c => c ≠ e) := by
  rw [entities_runClear w e tb tok d0 he] at hp
  obtain ⟨q, hq, hpq⟩ := List.mem_map.mp hp
  exact ⟨q, (List.mem_filter.mp hq).1, by rw [← hpq]; rfl, by rw [← hpq]; rfl⟩

theorem WF_runClear (w : World) (e tb : Entity) (tok : EndToken) (d0 : EntityData)
    (hwf : WF w) (he : getEntity w e = some d0) : WF (runClear w e tb tok) := by
  obtain ⟨h1, h2, h3, h4, h5⟩ := hwf
  obtain ⟨hend, hvis, hfrag, hsys, hns, hni⟩ := runClear_fields w e tb tok
  refine ⟨?_, ?_, ?_, ?_, ?_⟩
  · intro p hp
    obtain ⟨q, hq, hq1, _⟩ := mem_entities_runClear w e tb tok d0 he p hp
    rw [hni, hq1]
    exact h1 q hq
  · intro p hp
    rw [hsys] at hp
    rw [hns]
    exact h2 p hp
  · rw [entities_runClear w e tb tok d0 he]
    have hfst : ∀ q : Entity × EntityData, (dropChild e q).1 = q.1 := fun q => rfl
    have : ((w.entities.filter (fun p => p.1 ≠ e)).map (dropChild e)).map Prod.fst =
        (w.entities.filter (fun p => p.1 ≠ e)).map Prod.fst := by
      rw [List.map_map]
      rfl
    rw [this]
    exact List.Nodup.sublist (List.Sublist.map Prod.fst (List.filter_sublist _)) h3
  · intro p hp c hc
    obtain ⟨q, hq, _, hq2⟩ := mem_entities_runClear w e tb tok d0 he p hp
    rw [hq2] at hc
    rw [hni]
    exact h4 q hq c (List.mem_filter.mp hc).1
  · intro p hp q hq c hcp hcq
    obtain ⟨p', hp', hp1, hp2⟩ := mem_entities_runClear w e tb tok d0 he p hp
    obtain ⟨q', hq', hq1, hq2⟩ := mem_entities_runClear w e tb tok d0 he q hq
    rw [hp2] at hcp
    rw [hq2] at hcq
    rw [hp1, hq1]
    exact h5 p' hp' q' hq' c (List.mem_filter.mp hcp).1 (List.mem_filter.mp hcq).1

theorem stageVisInv_runClear (w : World) (e tb : Entity) (tok : EndToken)
    (d0 : EntityData) (hwf : WF w) (hinv : StageVisInv w)
    (he : getEntity w e = some d0) (hchild : e ∈ childrenOf w tb)
    (huniq : ∀ x, x ∈ childrenOf w tb → awaiting w x = true → x = e) :
    StageVisInv (runClear w e tb tok) := by
  intro t c ht hc hcv
  rw [isTextBox_runClear w e tb tok d0 he] at ht
  by_cases hte : t = e
  · rw [if_pos hte] at ht
    simp at ht
  rw [if_neg hte] at ht
  rw [childrenOf_runClear w e tb tok d0 he, if_neg hte] at hc
  have hc0 : c ∈ childrenOf w t := (List.mem_filter.mp hc).1
  have hce : c ≠ e := by
    have := (List.mem_filter.mp hc).2
    simpa using this
  rw [isContinueVis_runClear w e tb tok d0 he, if_neg hce] at hcv
  have hvev : (runClear w e tb tok).visEvents =
      w.visEvents ++ [⟨tb, Visibility.Hidden⟩] := (runClear_fields w e tb tok).2.1
  rw [hvev, appliedVis_append, visOf_runClear w e tb tok d0 he, if_neg hce]
  by_cases htb : t = tb
  · subst htb
    rw [appliedVis_single_eq t _ _ rfl]
    have htarget : indicatorTarget (runClear w e t tok) t = Visibility.Hidden := by
      unfold indicatorTarget
      have hany : ((childrenOf (runClear w e t tok) t).any
          (fun x => awaiting (runClear w e t tok) x)) = false := by
        apply Bool.eq_false_iff.mpr
        intro hx
        rw [List.any_eq_true] at hx
        obtain ⟨x, hxmem, hxaw⟩ := hx
        rw [childrenOf_runClear w e t tok d0 he, if_neg hte] at hxmem
        have hx0 : x ∈ childrenOf w t := (List.mem_filter.mp hxmem).1
        have hxe : x ≠ e := by
          have := (List.mem_filter.mp hxmem).2
          simpa using this
        rw [awaiting_runClear w e t tok d0 he, if_neg hxe] at hxaw
        exact hxe (huniq x hx0 hxaw)
      rw [hany]
      simp
    rw [htarget]
  · rw [appliedVis_single_ne t _ _ (fun hcc => htb (Eq.symm hcc)),
      hinv t c ht hc0 hcv]
    have hne : e ∉ childrenOf w t := by
      intro hmem
      exact htb (uniqueParent w hwf t tb e hmem hchild)
    have htarget : indicatorTarget (runClear w e tb tok) t = indicatorTarget w t := by
      unfold indicatorTarget
      rw [childrenOf_runClear w e tb tok d0 he, if_neg hte]
      have hfilter : (childrenOf w t).filter (fun c => c ≠ e) = childrenOf w t := by
        rw [List.filter_eq_self]
        intro x hx
        simp only [decide_eq_true_eq]
        intro hxe
        subst hxe
        exact hne hx
      rw [hfilter]
      have haw : ∀ x ∈ childrenOf w t,
          awaiting (runClear w e tb tok) x = awaiting w x := by
        intro x hx
        have hxe : x ≠ e := by
          intro hxe
          subst hxe
          exact hne hx
        rw [awaiting_runClear w e tb tok d0 he, if_neg hxe]
      rw [any_congr_mem _ _ _ haw]
    rw [htarget]

/-- The record a freshly spawned section entity carries. -/
def secData (w : World) (ev : FragmentEvent) (b : Bundle) : EntityData :=
  { sec := some ev.data.sec, scroll := true, onScrollEnd := some w.nextSystem,
    extra := some b }

/-- The world produced by a successful single-fragment spawn. -/
def spawnWorld (w : World) (ev : FragmentEvent) (b : Bundle) (dt : EntityData) :
    World :=
  { entities := updateA w.entities ev.data.textbox
        { dt with children := dt.children ++ [w.nextId] } ++
      [(w.nextId, { sec := some ev.data.sec, scroll := true,
                    onScrollEnd := some w.nextSystem, extra := some b })],
    nextId := w.nextId + 1,
    systems := w.systems ++
      [(w.nextSystem, Handler.scrollEnd w.nextId ev.data.textbox ev.endTok)],
    nextSystem := w.nextSystem + 1,
    visEvents := w.visEvents, fragEvents := w.fragEvents,
    endEvents := w.endEvents }

theorem spawnSectionFrag_ok_inv (w w1 : World) (ev : FragmentEvent)
    (hlt : ∀ p ∈ w.entities, p.1 < w.nextId)
    (hrun : spawnSectionFrag w ev = Except.ok w1) :
    ∃ dt b, getEntity w ev.data.textbox = some dt ∧ dt.textBox = some b ∧
      w1 = spawnWorld w ev b dt := by
  cases hb : bundleOf w ev.data.textbox with
  | none =>
    rw [spawnSectionFrag_err w ev hb] at hrun
    exact absurd hrun (by simp)
  | some b =>
    unfold bundleOf at hb
    cases hg : getEntity w ev.data.textbox with
    | none => rw [hg] at hb; simp at hb
    | some dt =>
      rw [hg] at hb
      simp at hb
      rw [spawnSectionFrag_ok w ev b dt hlt hg hb] at hrun
      injection hrun with h
      exact ⟨dt, b, rfl, hb, h.symm⟩

theorem getEntity_spawnWorld (w : World) (ev : FragmentEvent) (b : Bundle)
    (dt : EntityData) (hlt : ∀ p ∈ w.entities, p.1 < w.nextId)
    (ht : getEntity w ev.data.textbox = some dt) (x : Entity) :
    getEntity (spawnWorld w ev b dt) x =
      if x = w.nextId then
        some { sec := some ev.data.sec, scroll := true,
               onScrollEnd := some w.nextSystem, extra := some b }
      else if x = ev.data.textbox then
        some { dt with children := dt.children ++ [w.nextId] }
      else getEntity w x := by
  have htb_lt : ev.data.textbox < w.nextId :=
    hlt (ev.data.textbox, dt) (getEntity_mem w ev.data.textbox dt ht)
  have htb_ne : ev.data.textbox ≠ w.nextId := Nat.ne_of_lt htb_lt
  unfold spawnWorld getEntity
  by_cases hx : x = w.nextId
  · subst hx
    rw [if_pos rfl]
    have h1 : lookupA (updateA w.entities ev.data.textbox
        { dt with children := dt.children ++ [w.nextId] }) w.nextId = none := by
      rw [lookupA_updateA_ne w.entities ev.data.textbox w.nextId _
        (fun hc => htb_ne hc.symm)]
      exact lookupA_none_of_lt w.entities w.nextId hlt
    rw [lookupA_append_of_none _ _ _ h1]
    simp [lookupA]
  · rw [if_neg hx]
    by_cases hxt : x = ev.data.textbox
    · rw [if_pos hxt, hxt]
      exact lookupA_append_of_some _ _ _ _
        (lookupA_updateA_self w.entities ev.data.textbox _)
    · rw [if_neg hxt]
      have h1 : lookupA (updateA w.entities ev.data.textbox
          { dt with children := dt.children ++ [w.nextId] }) x =
          lookupA w.entities x :=
        lookupA_updateA_ne w.entities ev.data.textbox x _ hxt
      cases hw : lookupA w.entities x with
      | some d =>
        rw [lookupA_append_of_some _ _ _ d (h1.trans hw)]
      | none =>
        rw [lookupA_append_of_none _ _ _ (h1.trans hw)]
        have : ¬(w.nextId = x) := fun hc => hx hc.symm
        simp [lookupA, this]

theorem getEntity_w_nextId_none (w : World)
    (hlt : ∀ p ∈ w.entities, p.1 < w.nextId) : getEntity w w.nextId = none :=
  lookupA_none_of_lt w.entities w.nextId hlt

theorem isTextBox_spawnWorld (w : World) (ev : FragmentEvent) (b : Bundle)
    (dt : EntityData) (hlt : ∀ p ∈ w.entities, p.1 < w.nextId)
    (ht : getEntity w ev.data.textbox = some dt) (t : Entity) :
    isTextBox (spawnWorld w ev b dt) t = isTextBox w t := by
  have htb_lt : ev.data.textbox < w.nextId :=
    hlt (ev.data.textbox, dt) (getEntity_mem w ev.data.textbox dt ht)
  have hnone : getEntity w w.nextId = none := getEntity_w_nextId_none w hlt
  unfold isTextBox
  rw [getEntity_spawnWorld w ev b dt hlt ht]
  by_cases hx : t = w.nextId
  · subst hx
    have hne : ¬(w.nextId = ev.data.textbox) := fun hc => Nat.ne_of_lt htb_lt hc.symm
    simp [hne, hnone]
  · by_cases hxt : t = ev.data.textbox
    · subst hxt
      simp [hx, ht]
    · simp [hx, hxt]

theorem childrenOf_spawnWorld (w : World) (ev : FragmentEvent) (b : Bundle)
    (dt : EntityData) (hlt : ∀ p ∈ w.entities, p.1 < w.nextId)
    (ht : getEntity w ev.data.textbox = some dt) (t : Entity) :
    childrenOf (spawnWorld w ev b dt) t =
      if t = ev.data.textbox then childrenOf w t ++ [w.nextId]
      else childrenOf w t := by
  have htb_lt : ev.data.textbox < w.nextId :=
    hlt (ev.data.textbox, dt) (getEntity_mem w ev.data.textbox dt ht)
  have hnone : getEntity w w.nextId = none := getEntity_w_nextId_none w hlt
  unfold childrenOf
  rw [getEntity_spawnWorld w ev b dt hlt ht]
  by_cases hx : t = w.nextId
  · subst hx
    have hne : ¬(w.nextId = ev.data.textbox) := fun hc => Nat.ne_of_lt htb_lt hc.symm
    simp [hne, hnone]
  · by_cases hxt : t = ev.data.textbox
    · subst hxt
      simp [hx, ht]
    · simp [hx, hxt]

theorem awaiting_spawnWorld (w : World) (ev : FragmentEvent) (b : Bundle)
    (dt : EntityData) (hlt : ∀ p ∈ w.entities, p.1 < w.nextId)
    (ht : getEntity w ev.data.textbox = some dt) (x : Entity) :
    awaiting (spawnWorld w ev b dt) x = awaiting w x := by
  have htb_lt : ev.data.textbox < w.nextId :=
    hlt (ev.data.textbox, dt) (getEntity_mem w ev.data.textbox dt ht)
  have hnone : getEntity w w.nextId = none := getEntity_w_nextId_none w hlt
  unfold awaiting
  rw [getEntity_spawnWorld w ev b dt hlt ht]
  by_cases hx : x = w.nextId
  · subst hx
    have hne : ¬(w.nextId = ev.data.textbox) := fun hc => Nat.ne_of_lt htb_lt hc.symm
    simp [hne, hnone]
  · by_cases hxt : x = ev.data.textbox
    · subst hxt
      simp [hx, ht]
    · simp [hx, hxt]

theorem isContinueVis_spawnWorld (w : World) (ev : FragmentEvent) (b : Bundle)
    (dt : EntityData) (hlt : ∀ p ∈ w.entities, p.1 < w.nextId)
    (ht : getEntity w ev.data.textbox = some dt) (c : Entity) :
    isContinueVis (spawnWorld w ev b dt) c = isContinueVis w c := by
  have htb_lt : ev.data.textbox < w.nextId :=
    hlt (ev.data.textbox, dt) (getEntity_mem w ev.data.textbox dt ht)
  have hnone : getEntity w w.nextId = none := getEntity_w_nextId_none w hlt
  unfold isContinueVis
  rw [getEntity_spawnWorld w ev b dt hlt ht]
  by_cases hx : c = w.nextId
  · subst hx
    have hne : ¬(w.nextId = ev.data.textbox) := fun hc => Nat.ne_of_lt htb_lt hc.symm
    simp [hne, hnone]
  · by_cases hxt : c = ev.data.textbox
    · subst hxt
      simp [hx, ht]
    · simp [hx, hxt]

theorem visOf_spawnWorld (w : World) (ev : FragmentEvent) (b : Bundle)
    (dt : EntityData) (hlt : ∀ p ∈ w.entities, p.1 < w.nextId)
    (ht : getEntity w ev.data.textbox = some dt) (c : Entity) :
    visOf (spawnWorld w ev b dt) c = visOf w c := by
  have htb_lt : ev.data.textbox < w.nextId :=
    hlt (ev.data.textbox, dt) (getEntity_mem w ev.data.textbox dt ht)
  have hnone : getEntity w w.nextId = none := getEntity_w_nextId_none w hlt
  unfold visOf
  rw [getEntity_spawnWorld w ev b dt hlt ht]
  by_cases hx : c = w.nextId
  · subst hx
    have hne : ¬(w.nextId = ev.data.textbox) := fun hc => Nat.ne_of_lt htb_lt hc.symm
    simp [hne, hnone]
  · by_cases hxt : c = ev.data.textbox
    · subst hxt
      simp [hx, ht]
    · simp [hx, hxt]

theorem WF_spawnWorld (w : World) (ev : FragmentEvent) (b : Bundle)
    (dt : EntityData) (hwf : WF w)
    (ht : getEntity w ev.data.textbox = some dt) : WF (spawnWorld w ev b dt) := by
  obtain ⟨h1, h2, h3, h4, h5⟩ := hwf
  have hmem : (ev.data.textbox, dt) ∈ w.entities :=
    getEntity_mem w ev.data.textbox dt ht
  have ht' : lookupA w.entities ev.data.textbox = some dt := ht
  have hmem' : ∀ p, p ∈ (spawnWorld w ev b dt).entities →
      p = (w.nextId, secData w ev b) ∨
      p = (ev.data.textbox,
            { dt with children := dt.children ++ [w.nextId] }) ∨
      p ∈ w.entities := by
    intro p hp
    rcases List.mem_append.mp hp with h | h
    · rcases mem_updateA w.entities ev.data.textbox _ p h with h' | h'
      · exact Or.inr (Or.inl h')
      · exact Or.inr (Or.inr h')
    · simp at h
      exact Or.inl h
  refine ⟨?_, ?_, ?_, ?_, ?_⟩
  · intro p hp
    rcases hmem' p hp with h | h | h
    · rw [h]
      exact Nat.lt_succ_self _
    · rw [h]
      exact Nat.lt_succ_of_lt (h1 (ev.data.textbox, dt) hmem)
    · exact Nat.lt_succ_of_lt (h1 p h)
  · intro p hp
    rcases List.mem_append.mp hp with h | h
    · exact Nat.lt_succ_of_lt (h2 p h)
    · simp at h
      rw [h]
      exact Nat.lt_succ_self _
  · have hkeys : (spawnWorld w ev b dt).entities.map Prod.fst =
        w.entities.map Prod.fst ++ [w.nextId] := by
      show (updateA w.entities ev.data.textbox _ ++ [(w.nextId, _)]).map Prod.fst = _
      rw [List.map_append, updateA_keys w.entities ev.data.textbox _ dt ht']
      rfl
    rw [hkeys, List.nodup_append]
    refine ⟨h3, List.nodup_singleton _, ?_⟩
    intro a ha ha'
    simp at ha'
    obtain ⟨q, hq, hq1⟩ := List.mem_map.mp ha
    rw [ha'] at hq1
    exact absurd hq1 (Nat.ne_of_lt (h1 q hq))
  · intro p hp c hc
    rcases hmem' p hp with h | h | h
    · rw [h] at hc
      simp [secData] at hc
    · rw [h] at hc
      rcases List.mem_append.mp hc with h' | h'
      · exact Nat.lt_succ_of_lt (h4 (ev.data.textbox, dt) hmem c h')
      · simp at h'
        rw [h']
        exact Nat.lt_succ_self _
    · exact Nat.lt_succ_of_lt (h4 p h c hc)
  · intro p hp q hq c hcp hcq
    rcases hmem' p hp with h | h | h
    · rw [h] at hcp
      simp [secData] at hcp
    · rcases hmem' q hq with h' | h' | h'
      · rw [h'] at hcq
        simp [secData] at hcq
      · rw [h, h']
      · rw [h] at hcp ⊢
        rcases List.mem_append.mp hcp with hcc | hcc
        · exact h5 (ev.data.textbox, dt) hmem q h' c hcc hcq
        · simp at hcc
          rw [hcc] at hcq
          exact absurd (h4 q h' w.nextId hcq) (Nat.lt_irrefl _)
    · rcases hmem' q hq with h' | h' | h'
      · rw [h'] at hcq
        simp [secData] at hcq
      · rw [h'] at hcq ⊢
        rcases List.mem_append.mp hcq with hcc | hcc
        · exact h5 p h (ev.data.textbox, dt) hmem c hcp hcc
        · simp at hcc
          rw [hcc] at hcp
          exact absurd (h4 p h w.nextId hcp) (Nat.lt_irrefl _)
      · exact h5 p h q h' c hcp hcq

theorem stageVisInv_spawnWorld (w : World) (ev : FragmentEvent) (b : Bundle)
    (dt : EntityData) (hwf : WF w) (hinv : StageVisInv w)
    (ht : getEntity w ev.data.textbox = some dt) :
    StageVisInv (spawnWorld w ev b dt) := by
  have hlt := hwf.1
  have hnone : getEntity w w.nextId = none := getEntity_w_nextId_none w hlt
  have haw : awaiting w w.nextId = false := by
    unfold awaiting
    rw [hnone]
  have hcvn : isContinueVis w w.nextId = false := by
    unfold isContinueVis
    rw [hnone]
  intro t c ht' hc hcv
  rw [isTextBox_spawnWorld w ev b dt hlt ht] at ht'
  rw [childrenOf_spawnWorld w ev b dt hlt ht] at hc
  rw [isContinueVis_spawnWorld w ev b dt hlt ht] at hcv
  have hc0 : c ∈ childrenOf w t := by
    by_cases htb : t = ev.data.textbox
    · rw [if_pos htb] at hc
      rcases List.mem_append.mp hc with h | h
      · exact h
      · simp at h
        rw [h] at hcv
        rw [hcvn] at hcv
        simp at hcv
    · rw [if_neg htb] at hc
      exact hc
  have hvev : (spawnWorld w ev b dt).visEvents = w.visEvents := rfl
  rw [hvev, visOf_spawnWorld w ev b dt hlt ht, hinv t c ht' hc0 hcv]
  have htarget : indicatorTarget (spawnWorld w ev b dt) t = indicatorTarget w t := by
    unfold indicatorTarget
    rw [childrenOf_spawnWorld w ev b dt hlt ht]
    simp only [awaiting_spawnWorld w ev b dt hlt ht]
    by_cases htb : t = ev.data.textbox
    · rw [if_pos htb]
      rw [List.any_append]
      have : ([w.nextId].any fun x => awaiting w x) = false := by
        simp [haw]
      rw [this]
      simp
    · rw [if_neg htb]
  rw [htarget]

theorem spawn_preserve_step (w w1 : World) (ev : FragmentEvent) (hwf : WF w)
    (hinv : StageVisInv w) (hrun : spawnSectionFrag w ev = Except.ok w1) :
    WF w1 ∧ StageVisInv w1 := by
  obtain ⟨dt, b, ht, hb, heq⟩ := spawnSectionFrag_ok_inv w w1 ev hwf.1 hrun
  subst heq
  exact ⟨WF_spawnWorld w ev b dt hwf ht, stageVisInv_spawnWorld w ev b dt hwf hinv ht⟩

theorem foldlM_spawn_preserve (evs : List FragmentEvent) (w w' : World)
    (h : List.foldlM spawnSectionFrag w evs = Except.ok w')
    (hwf : WF w) (hinv : StageVisInv w) : WF w' ∧ StageVisInv w' := by
  induction evs generalizing w with
  | nil =>
    have h' : (Except.ok w : Except String World) = Except.ok w' := h
    injection h' with h'
    subst h'
    exact ⟨hwf, hinv⟩
  | cons ev evs ih =>
    rw [List.foldlM_cons] at h
    cases hrun : spawnSectionFrag w ev with
    | error msg =>
      rw [hrun] at h
      have h' : (Except.error msg : Except String World) = Except.ok w' := h
      exact absurd h' (by simp)
    | ok w1 =>
      rw [hrun] at h
      have h' : List.foldlM spawnSectionFrag w1 evs = Except.ok w' := h
      obtain ⟨hwf1, hinv1⟩ := spawn_preserve_step w w1 ev hwf hinv hrun
      exact ih w1 h' hwf1 hinv1

theorem spawn_frags_preserve (w w' : World)
    (h : spawn_section_frags w = Except.ok w') (hwf : WF w) (hinv : StageVisInv w) :
    WF w' ∧ StageVisInv w' := by
  unfold spawn_section_frags at h
  have hwf0 : WF { w with fragEvents := [] } := hwf
  have hinv0 : StageVisInv { w with fragEvents := [] } := hinv
  exact foldlM_spawn_preserve w.fragEvents { w with fragEvents := [] } w' h hwf0 hinv0

theorem serStep_preserve (w w' : World) (h : SerStep w w') (hwf : WF w)
    (hinv : StageVisInv w) : WF w' ∧ StageVisInv w' := by
  cases h with
  | drainFrags h => exact spawn_frags_preserve w w' h hwf hinv
  | drainVis h =>
    subst h
    exact ⟨WF_drain w hwf, stageVisInv_drain w hwf hinv⟩
  | scrollEnd e tb tok sid hreg hsys hchild hrun =>
    obtain ⟨d, he, heq⟩ := runScrollEnd_ok_inv w w' e tb tok hrun
    subst heq
    exact ⟨WF_armWorld w e tb tok d hwf he,
      stageVisInv_armWorld w e tb tok d hwf hinv he hchild⟩
  | clearSig e tb tok sid hreg hawait hsys hchild huniq hrun =>
    obtain ⟨d0, he, _⟩ := awaiting_some w e hawait
    subst hrun
    exact ⟨WF_runClear w e tb tok d0 hwf he,
      stageVisInv_runClear w e tb tok d0 hwf hinv he hchild huniq⟩

theorem serSteps_preserve (w0 w : World) (h : Steps SerStep w0 w) (hwf : WF w0)
    (hinv : StageVisInv w0) : WF w ∧ StageVisInv w := by
  induction h with
  | refl => exact ⟨hwf, hinv⟩
  | tail w2 w3 hsteps hstep ih =>
    obtain ⟨hwf2, hinv2⟩ := ih
    exact serStep_preserve w2 w3 hstep hwf2 hinv2

theorem stageVisInv_of_bounded (w : World) (h : StageVisInvB w) : StageVisInv w := by
  intro t c ht hc hcv
  unfold isTextBox at ht
  cases hg : getEntity w t with
  | none =>
    rw [hg] at ht
    simp at ht
  | some d =>
    rw [hg] at ht
    have hmem := getEntity_mem w t d hg
    have hcd : c ∈ d.children := by
      unfold childrenOf at hc
      rw [hg] at hc
      exact hc
    exact h (t, d) hmem ht c hcd hcv

/-- A host-made textbox setup: textbox entity 0 with attachment bundle 7 and
one indicator child, entity 1, bearing `Continue` and `Visibility::Hidden`
(the wiring of the crate's doc example). -/
def demoIndicator : EntityData :=
  { isContinue := true, visibility := some Visibility.Hidden }

def demoTextbox : EntityData :=
  { textBox := some 7, children := [1] }

/-- Overlap scenario: two fragments queued for the same textbox. -/
def cx0 : World :=
  { entities := [(0, demoTextbox), (1, demoIndicator)],
    nextId := 2,
    fragEvents := [⟨⟨0, "first"⟩, 100⟩, ⟨⟨0, "second"⟩, 101⟩] }

def cx1 : World := okD (spawn_section_frags cx0)

def cx2 : World := okD (runScrollEnd cx1 2 0 100)

def cx3 : World := okD (runScrollEnd cx2 3 0 101)

def cx4 : World := runClear cx3 2 0 100

def cx5 : World := update_continue_visibility cx4

/-- Single-fragment scenario used to exercise the serialized invariant. -/
def sx0 : World :=
  { entities := [(0, demoTextbox), (1, demoIndicator)],
    nextId := 2,
    fragEvents := [⟨⟨0, "hello"⟩, 50⟩] }

def sx1 : World := okD (spawn_section_frags sx0)

def sx2 : World := okD (runScrollEnd sx1 2 0 50)

def sx3 : World := update_continue_visibility sx2

/-- C1 (amended): at every tick boundary after event draining, the continue
indicator of a textbox is Visible iff at least one Section child of that
textbox has completed stage 1 (handler A fired, `AwaitClear` set) but not
stage 2 (not yet cleared/despawned), and Hidden otherwise — provided clear
signals are serialized, i.e. every clear signal fires for the unique
awaiting-clear Section of its textbox (no overlapping stage-1/stage-2
windows).  With overlapping windows the code applies last-write-wins
visibility requests and the iff can fail (see the counterexample). -/
theorem c1_indicator_iff_stage_window (w0 w : World) (hwf : WF w0)
    (hinv : StageVisInv w0) (hsteps : Steps SerStep w0 w) (hq : w.visEvents = [])
    (t c : Entity) (ht : isTextBox w t = true) (hc : c ∈ childrenOf w t)
    (hcv : isContinueVis w c = true) :
    (visOf w c = some Visibility.Visible ↔
      ∃ e, e ∈ childrenOf w t ∧ awaiting w e = true) ∧
    ((¬∃ e, e ∈ childrenOf w t ∧ awaiting w e = true) →
      visOf w c = some Visibility.Hidden) := by
  obtain ⟨hwf', hinv'⟩ := serSteps_preserve w0 w hsteps hwf hinv
  have h := hinv' t c ht hc hcv
  rw [hq, appliedVis_nil] at h
  unfold indicatorTarget at h
  by_cases hex : ∃ e, e ∈ childrenOf w t ∧ awaiting w e = true
  · have hany : ((childrenOf w t).any fun e => awaiting w e) = true := by
      rw [List.any_eq_true]
      obtain ⟨e, he1, he2⟩ := hex
      exact ⟨e, he1, he2⟩
    rw [hany] at h
    simp at h
    exact ⟨⟨fun _ => hex, fun _ => h⟩, fun hn => absurd hex hn⟩
  · have hany : ((childrenOf w t).any fun e => awaiting w e) = false := by
      apply Bool.eq_false_iff.mpr
      intro hcontra
      rw [List.any_eq_true] at hcontra
      exact hex hcontra
    rw [hany] at h
    simp at h
    refine ⟨⟨fun hv => ?_, fun he => absurd he hex⟩, fun _ => h⟩
    rw [h] at hv
    simp at hv

/-- C1 counterexample: with two overlapping in-flight Sections of one Textbox
(scroll end fires for both, then the first is cleared), the system reaches a
tick boundary with an empty visibility queue where Section 3 has completed
stage 1 but not stage 2 and yet the indicator is Hidden: the claimed iff
fails under overlapping stage-1/stage-2 windows. -/
theorem c1_counterexample :
    WF cx0 ∧ StageVisInv cx0 ∧ Steps TStep cx0 cx5 ∧ cx5.visEvents = [] ∧
    isTextBox cx5 0 = true ∧ (1 ∈ childrenOf cx5 0) ∧ isContinueVis cx5 1 = true ∧
    (3 ∈ childrenOf cx5 0) ∧ awaiting cx5 3 = true ∧
    visOf cx5 1 = some Visibility.Hidden := by
  refine ⟨by decide, stageVisInv_of_bounded cx0 (by decide), ?_, by decide,
    by decide, by decide, by decide, by decide, by decide, by decide⟩
  have s1 : TStep cx0 cx1 := TStep.drainFrags cx0 cx1 rfl
  have s2 : TStep cx1 cx2 :=
    TStep.scrollEnd cx1 cx2 2 0 100 0 (by decide) (by decide) (by decide) rfl
  have s3 : TStep cx2 cx3 :=
    TStep.scrollEnd cx2 cx3 3 0 101 1 (by decide) (by decide) (by decide) rfl
  have s4 : TStep cx3 cx4 :=
    TStep.clearSig cx3 cx4 2 0 100 2 (by decide) (by decide) (by decide)
      (by decide) rfl
  have s5 : TStep cx4 cx5 := TStep.drainVis cx4 cx5 rfl
  exact Steps.tail _ _ _ (Steps.tail _ _ _ (Steps.tail _ _ _
    (Steps.tail _ _ _ (Steps.tail _ _ _ (Steps.refl cx0) s1) s2) s3) s4) s5

/-- C1 witness: a concrete serialized run (spawn one section, fire its scroll
end, drain visibility) reaching a tick boundary where the theorem yields the
iff, with the indicator indeed Visible and section 2 awaiting clear. -/
theorem c1_witness :
    WF sx0 ∧ StageVisInv sx0 ∧ Steps SerStep sx0 sx3 ∧ sx3.visEvents = [] ∧
    isTextBox sx3 0 = true ∧ (1 ∈ childrenOf sx3 0) ∧ isContinueVis sx3 1 = true ∧
    (visOf sx3 1 = some Visibility.Visible ↔
      ∃ e, e ∈ childrenOf sx3 0 ∧ awaiting sx3 e = true) := by
  have hwf : WF sx0 := by decide
  have hinv : StageVisInv sx0 := stageVisInv_of_bounded sx0 (by decide)
  have s1 : SerStep sx0 sx1 := SerStep.drainFrags sx0 sx1 rfl
  have s2 : SerStep sx1 sx2 :=
    SerStep.scrollEnd sx1 sx2 2 0 50 0 (by decide) (by decide) (by decide) rfl
  have s3 : SerStep sx2 sx3 := SerStep.drainVis sx2 sx3 rfl
  have hsteps : Steps SerStep sx0 sx3 :=
    Steps.tail _ _ _ (Steps.tail _ _ _ (Steps.tail _ _ _ (Steps.refl sx0) s1) s2) s3
  refine ⟨hwf, hinv, hsteps, by decide, by decide, by decide, by decide, ?_⟩
  exact (c1_indicator_iff_stage_window sx0 sx3 hwf hinv hsteps (by decide) 0 1
    (by decide) (by decide) (by decide)).1

/-- C4: for a Section marked awaiting-clear, its clear handler B emits the
fragment's completion token exactly once, despawns the Section so that it no
longer exists and is not reachable as a child of any entity (in particular
its former Textbox), and emits a Hide request for the owning Textbox. -/
theorem c4_clear_handler (w : World) (e tb : Entity) (tok : EndToken)
    (hawait : awaiting w e = true) :
    (runClear w e tb tok).endEvents = w.endEvents ++ [tok] ∧
    getEntity (runClear w e tb tok) e = none ∧
    (∀ t, e ∉ childrenOf (runClear w e tb tok) t) ∧
    (runClear w e tb tok).visEvents = w.visEvents ++ [⟨tb, Visibility.Hidden⟩] := by
  obtain ⟨d0, he, _⟩ := awaiting_some w e hawait
  obtain ⟨hend, hvis, _, _, _, _⟩ := runClear_fields w e tb tok
  refine ⟨hend, ?_, ?_, hvis⟩
  · rw [getEntity_runClear w e tb tok e d0 he]
    simp
  · intro t
    rw [childrenOf_runClear w e tb tok d0 he]
    by_cases ht : t = e
    · simp [ht]
    · rw [if_neg ht]
      intro hmem
      have := (List.mem_filter.mp hmem).2
      simp at this

/-- C4 witness: clearing the first overlap-scenario section emits its token,
removes entity 2 from the world and from the textbox's children, and queues a
Hide request. -/
theorem c4_witness :
    awaiting cx3 2 = true ∧
    (runClear cx3 2 0 100).endEvents = cx3.endEvents ++ [100] ∧
    getEntity (runClear cx3 2 0 100) 2 = none ∧
    (2 ∉ childrenOf (runClear cx3 2 0 100) 0) ∧
    (runClear cx3 2 0 100).visEvents =
      cx3.visEvents ++ [⟨0, Visibility.Hidden⟩] := by
  have h := c4_clear_handler cx3 2 0 100 (by decide)
  exact ⟨by decide, h.1, h.2.1, h.2.2.1 0, h.2.2.2⟩

/-- C7: the authored-content conversion of `impl_into_frag!` is total for all
three supported content kinds — plain text, owned string, and the rich
section-content type — always producing the fragment that couples the ambient
context's textbox with the converted section content, wrapped for the
sequencing layer. -/
theorem c7_conversion_total :
    ∀ (ctx : Context) (s : String) (t : TypeWriterSection) (c : Content),
      into_fragment (Content.staticStr s) ctx =
        ⟨{ textbox := ctx.current.entity, sec := s }⟩ ∧
      into_fragment (Content.ownedString s) ctx =
        ⟨{ textbox := ctx.current.entity, sec := s }⟩ ∧
      into_fragment (Content.typeWriterSection t) ctx =
        ⟨{ textbox := ctx.current.entity, sec := t }⟩ ∧
      into_fragment c ctx =
        ⟨{ textbox := ctx.current.entity, sec := contentToSection c }⟩ :=
  fun _ _ _ _ => ⟨rfl, rfl, rfl, rfl⟩

/-- World for the stale-handler scenario: the section entity 5 was despawned
externally before either of its registered handlers fired. -/
def c8w : World :=
  { entities := [(0, demoTextbox), (1, demoIndicator)], nextId := 9,
    systems := [(0, Handler.scrollEnd 5 0 42), (1, Handler.clear 5 0 42)],
    nextSystem := 2 }

/-- C8 (divergence evidence): with section entity 5 already despawned,
invoking its scroll-end handler A is not a silent no-op but a panic (the
deferred insert of `(AwaitClear, OnClear)` hits a despawned entity, Bevy
error B0003), and invoking its clear handler B is not silent either: it still
emits the completion token and the Hide request. -/
theorem c8_stale_handlers_not_noop :
    getEntity c8w 5 = none ∧
    runScrollEnd c8w 5 0 42 = Except.error (insertDespawnedMsg 5) ∧
    (runClear c8w 5 0 42).endEvents = c8w.endEvents ++ [42] ∧
    (runClear c8w 5 0 42).visEvents = c8w.visEvents ++ [⟨0, Visibility.Hidden⟩] := by
  exact ⟨by decide, rfl, by decide, by decide⟩

/-- C9: a visibility request addressed to a Textbox with no indicator-marked
child (in particular with no children at all) is a silent no-op: the world is
returned unchanged and no failure is raised. -/
theorem c9_no_indicator_noop (w : World) (ev : UpdateContinueVis)
    (h : ∀ c ∈ childrenOf w ev.entity, ∀ d, getEntity w c = some d →
      d.isContinue = false) :
    applyVisEvent w ev = w := by
  unfold applyVisEvent
  cases hg : getEntity w ev.entity with
  | none => rfl
  | some d =>
    by_cases htb : d.textBox.isSome = true
    · simp only [htb, if_true]
      have hch : childrenOf w ev.entity = d.children := by
        unfold childrenOf
        rw [hg]
      have hgen : ∀ cs : List Entity,
          (∀ c ∈ cs, ∀ d0, getEntity w c = some d0 → d0.isContinue = false) →
          cs.foldl (fun acc c => setChildVis acc ev.visibility c) w = w := by
        intro cs
        induction cs with
        | nil => intro _; rfl
        | cons c cs ih =>
          intro hcs
          rw [List.foldl_cons]
          have hset : setChildVis w ev.visibility c = w := by
            unfold setChildVis
            cases hgc : getEntity w c with
            | none => rfl
            | some dc =>
              have := hcs c (List.mem_cons_self _ _) dc hgc
              simp [this]
          rw [hset]
          exact ih (fun c' hc' => hcs c' (List.mem_cons_of_mem _ hc'))
      exact hgen d.children (fun c hcmem => h c (by rw [hch]; exact hcmem))
    · simp [htb]

/-- World for the no-indicator scenario: textbox 0 has one child, entity 1,
which does not carry the `Continue` marker. -/
def c9w : World :=
  { entities := [(0, demoTextbox), (1, { visibility := some Visibility.Hidden })],
    nextId := 2 }

/-- C9 witness: a Show request to textbox 0, whose only child carries no
indicator marker, leaves the world untouched. -/
theorem c9_witness :
    applyVisEvent c9w ⟨0, Visibility.Visible⟩ = c9w :=
  c9_no_indicator_noop c9w ⟨0, Visibility.Visible⟩ (by decide)

theorem visTouch_isContinue (v : Visibility) (d : EntityData) :
    (visTouch v d).isContinue = d.isContinue := by
  unfold visTouch
  split <;> rfl

theorem visTouch_sec (v : Visibility) (d : EntityData) :
    (visTouch v d).sec = d.sec := by
  unfold visTouch
  split <;> rfl

theorem visTouch_scroll (v : Visibility) (d : EntityData) :
    (visTouch v d).scroll = d.scroll := by
  unfold visTouch
  split <;> rfl

theorem visTouch_extra (v : Visibility) (d : EntityData) :
    (visTouch v d).extra = d.extra := by
  unfold visTouch
  split <;> rfl

/-- A broadcast sets the visibility of a matching indicator child to the
requested value. -/
theorem applyVisEvent_sets (w : World) (ev : UpdateContinueVis) (c : Entity)
    (d : EntityData) (hg : getEntity w c = some d)
    (ht : isTextBox w ev.entity = true) (hc : c ∈ childrenOf w ev.entity)
    (hic : d.isContinue = true) (hiv : d.visibility.isSome = true) :
    visOf (applyVisEvent w ev) c = some ev.visibility := by
  unfold visOf
  rw [getEntity_applyVisEvent, if_pos ⟨ht, hc⟩, hg]
  simp [visTouch, hic, hiv]

/-- C5: visibility requests are processed strictly in emission order with no
reordering or coalescing — the drain is the left fold of the per-request
broadcast over the queue, and folds decompose sequentially; each request
updates every matching indicator child of the addressed textbox to the
requested value (broadcast, last write wins); consequently a Show followed
immediately by a Hide for the same textbox leaves every indicator child of
that textbox Hidden. -/
theorem c5_requests_in_order :
    (∀ w, update_continue_visibility w =
      { w.visEvents.foldl applyVisEvent w with visEvents := [] }) ∧
    (∀ (w : World) (evs1 evs2 : List UpdateContinueVis),
      (evs1 ++ evs2).foldl applyVisEvent w =
        evs2.foldl applyVisEvent (evs1.foldl applyVisEvent w)) ∧
    (∀ w ev c d, getEntity w c = some d → isTextBox w ev.entity = true →
      c ∈ childrenOf w ev.entity → d.isContinue = true →
      d.visibility.isSome = true →
      visOf (applyVisEvent w ev) c = some ev.visibility) ∧
    (∀ w tb c, w.visEvents = [⟨tb, Visibility.Visible⟩, ⟨tb, Visibility.Hidden⟩] →
      isTextBox w tb = true → c ∈ childrenOf w tb → isContinueVis w c = true →
      visOf (update_continue_visibility w) c = some Visibility.Hidden) := by
  refine ⟨fun w => rfl, fun w evs1 evs2 => List.foldl_append _ _ _ _, applyVisEvent_sets,
    ?_⟩
  intro w tb c hq ht hc hcv
  have hd : ∃ d, getEntity w c = some d ∧ d.isContinue = true ∧
      d.visibility.isSome = true := by
    unfold isContinueVis at hcv
    cases hg : getEntity w c with
    | none => rw [hg] at hcv; simp at hcv
    | some d =>
      rw [hg] at hcv
      rw [Bool.and_eq_true] at hcv
      exact ⟨d, rfl, hcv.1, hcv.2⟩
  obtain ⟨d, hg, hic, hiv⟩ := hd
  have hg1 : getEntity (applyVisEvent w ⟨tb, Visibility.Visible⟩) c =
      some (visTouch Visibility.Visible d) := by
    rw [getEntity_applyVisEvent, if_pos ⟨ht, hc⟩, hg]
    rfl
  have hcv1 : ((visTouch Visibility.Visible d).isContinue &&
      (visTouch Visibility.Visible d).visibility.isSome) = true := by
    rw [visTouch_continueVis]
    rw [hic, hiv]
    rfl
  rw [Bool.and_eq_true] at hcv1
  have ht1 : isTextBox (applyVisEvent w ⟨tb, Visibility.Visible⟩) tb = true := by
    rw [isTextBox_applyVisEvent]
    exact ht
  have hc1 : c ∈ childrenOf (applyVisEvent w ⟨tb, Visibility.Visible⟩) tb := by
    rw [childrenOf_applyVisEvent]
    exact hc
  have hmain := applyVisEvent_sets (applyVisEvent w ⟨tb, Visibility.Visible⟩)
    ⟨tb, Visibility.Hidden⟩ c (visTouch Visibility.Visible d) hg1 ht1 hc1
    hcv1.1 hcv1.2
  calc visOf (update_continue_visibility w) c
      = visOf (w.visEvents.foldl applyVisEvent w) c := rfl
    _ = visOf (([⟨tb, Visibility.Visible⟩,
          ⟨tb, Visibility.Hidden⟩] : List UpdateContinueVis).foldl applyVisEvent w)
          c := by rw [hq]
    _ = some Visibility.Hidden := hmain

/-- World for the Show-then-Hide scenario. -/
def c5w : World :=
  { entities := [(0, demoTextbox), (1, demoIndicator)], nextId := 2,
    visEvents := [⟨0, Visibility.Visible⟩, ⟨0, Visibility.Hidden⟩] }

/-- C5 witness: draining a Show immediately followed by a Hide for textbox 0
leaves its indicator child Hidden. -/
theorem c5_witness :
    visOf (update_continue_visibility c5w) 1 = some Visibility.Hidden :=
  c5_requests_in_order.2.2.2 c5w 0 1 rfl (by decide) (by decide) (by decide)

/-- C10: processing one visibility request changes at most the `Visibility`
component of entities that are children of the target and bear the `Continue`
marker, and only when the target has the `TextBox` component; a request whose
target is not a textbox leaves every entity unchanged; every other component
of every entity, every other entity, and all queues and counters are
untouched. -/
theorem c10_request_frame_effect (w : World) (ev : UpdateContinueVis) :
    (isTextBox w ev.entity = false → applyVisEvent w ev = w) ∧
    (∀ x, getEntity (applyVisEvent w ev) x =
      if isTextBox w ev.entity = true ∧ x ∈ childrenOf w ev.entity
      then (getEntity w x).map (visTouch ev.visibility)
      else getEntity w x) ∧
    (∀ x d d', getEntity w x = some d →
      getEntity (applyVisEvent w ev) x = some d' →
      d'.textBox = d.textBox ∧ d'.isContinue = d.isContinue ∧
      d'.children = d.children ∧ d'.sec = d.sec ∧ d'.scroll = d.scroll ∧
      d'.onScrollEnd = d.onScrollEnd ∧ d'.awaitClear = d.awaitClear ∧
      d'.onClear = d.onClear ∧ d'.extra = d.extra ∧
      (d'.visibility ≠ d.visibility →
        isTextBox w ev.entity = true ∧ x ∈ childrenOf w ev.entity ∧
        d.isContinue = true ∧ d.visibility.isSome = true ∧
        d'.visibility = some ev.visibility)) ∧
    SameButEntities w (applyVisEvent w ev) := by
  refine ⟨?_, getEntity_applyVisEvent w ev, ?_, sameButEntities_applyVisEvent w ev⟩
  · intro hfalse
    unfold applyVisEvent
    cases hg : getEntity w ev.entity with
    | none => rfl
    | some d =>
      have : d.textBox.isSome = false := by
        unfold isTextBox at hfalse
        rw [hg] at hfalse
        exact hfalse
      simp [this]
  · intro x d d' hgx hgx'
    rw [getEntity_applyVisEvent] at hgx'
    by_cases hcond : isTextBox w ev.entity = true ∧ x ∈ childrenOf w ev.entity
    · rw [if_pos hcond, hgx] at hgx'
      have hd' : d' = visTouch ev.visibility d := by
        injection hgx' with h
        exact h.symm
      subst hd'
      refine ⟨visTouch_textBox _ _, visTouch_isContinue _ _, visTouch_children _ _,
        visTouch_sec _ _, visTouch_scroll _ _, visTouch_onScrollEnd _ _,
        visTouch_awaitClear _ _, visTouch_onClear _ _, visTouch_extra _ _, ?_⟩
      intro hvne
      unfold visTouch at hvne ⊢
      by_cases hcc : (d.isContinue && d.visibility.isSome) = true
      · rw [Bool.and_eq_true] at hcc
        refine ⟨hcond.1, hcond.2, hcc.1, hcc.2, ?_⟩
        have hb : (d.isContinue && d.visibility.isSome) = true := by
          rw [hcc.1, hcc.2]
          rfl
        rw [if_pos hb]
      · simp [hcc] at hvne
    · rw [if_neg hcond, hgx] at hgx'
      have hd' : d' = d := by
        injection hgx' with h
        exact h.symm
      subst hd'
      exact ⟨rfl, rfl, rfl, rfl, rfl, rfl, rfl, rfl, rfl, fun hvne => absurd rfl hvne⟩

/-- World whose entity 3 exists but is not a textbox. -/
def c10w : World :=
  { entities := [(0, demoTextbox), (1, demoIndicator),
      (3, { visibility := some Visibility.Visible })],
    nextId := 4,
    visEvents := [] }

/-- C10 witness: a request targeting the non-textbox entity 3 changes
nothing, and a request targeting textbox 0 sets only the indicator child's
visibility, leaving all its other components alone. -/
theorem c10_witness :
    applyVisEvent c10w ⟨3, Visibility.Visible⟩ = c10w ∧
    getEntity (applyVisEvent c10w ⟨0, Visibility.Visible⟩) 1 =
      some { demoIndicator with visibility := some Visibility.Visible } ∧
    getEntity (applyVisEvent c10w ⟨0, Visibility.Visible⟩) 3 = getEntity c10w 3 := by
  refine ⟨(c10_request_frame_effect c10w ⟨3, Visibility.Visible⟩).1 (by decide),
    ?_, ?_⟩
  · rw [(c10_request_frame_effect c10w ⟨0, Visibility.Visible⟩).2.1 1]
    have : isTextBox c10w 0 = true ∧ 1 ∈ childrenOf c10w 0 := by decide
    rw [if_pos this]
    decide
  · rw [(c10_request_frame_effect c10w ⟨0, Visibility.Visible⟩).2.1 3]
    have : ¬(isTextBox c10w 0 = true ∧ 3 ∈ childrenOf c10w 0) := by decide
    rw [if_neg this]

/-- C2: for every fragment-ready notification whose owning textbox exists,
exactly one new Section entity is created (the fresh id, previously unused,
now present; every other entity unchanged except for the textbox's child
list; the id counter advances by one) and added as the textbox's last child,
and the Section carries exactly the fragment's section content, a fresh
scroll marker, a scroll-end registration invoking handler A, and the
decoration produced by the textbox's attachment strategy. -/
theorem c2_fragment_spawns_one_section (w : World) (ev : FragmentEvent)
    (hwf : WF w) (htb : isTextBox w ev.data.textbox = true) :
    ∃ w' b dt,
      spawnSectionFrag w ev = Except.ok w' ∧
      getEntity w ev.data.textbox = some dt ∧
      bundleOf w ev.data.textbox = some b ∧
      getEntity w w.nextId = none ∧
      getEntity w' w.nextId = some
        { sec := some ev.data.sec, scroll := true,
          onScrollEnd := some w.nextSystem, extra := some b } ∧
      lookupSystem w' w.nextSystem =
        some (Handler.scrollEnd w.nextId ev.data.textbox ev.endTok) ∧
      getEntity w' ev.data.textbox =
        some { dt with children := dt.children ++ [w.nextId] } ∧
      (∀ x, x ≠ w.nextId → x ≠ ev.data.textbox → getEntity w' x = getEntity w x) ∧
      w'.nextId = w.nextId + 1 ∧
      w'.visEvents = w.visEvents ∧ w'.endEvents = w.endEvents := by
  have hex : ∃ dt b, getEntity w ev.data.textbox = some dt ∧ dt.textBox = some b := by
    unfold isTextBox at htb
    cases hg : getEntity w ev.data.textbox with
    | none => rw [hg] at htb; simp at htb
    | some dt =>
      rw [hg] at htb
      simp at htb
      cases hb : dt.textBox with
      | none => rw [hb] at htb; simp at htb
      | some b => exact ⟨dt, b, rfl, hb⟩
  obtain ⟨dt, b, hg, hb⟩ := hex
  have htb_lt : ev.data.textbox < w.nextId :=
    hwf.1 (ev.data.textbox, dt) (getEntity_mem w ev.data.textbox dt hg)
  refine ⟨spawnWorld w ev b dt, b, dt,
    spawnSectionFrag_ok w ev b dt hwf.1 hg hb, hg, ?_, getEntity_w_nextId_none w hwf.1,
    ?_, ?_, ?_, ?_, rfl, rfl, rfl⟩
  · unfold bundleOf
    rw [hg]
    simp [hb]
  · rw [getEntity_spawnWorld w ev b dt hwf.1 hg, if_pos rfl]
  · unfold lookupSystem
    show lookupA (w.systems ++
      [(w.nextSystem, Handler.scrollEnd w.nextId ev.data.textbox ev.endTok)])
      w.nextSystem = _
    rw [lookupA_append_of_none _ _ _ (lookupA_none_of_lt w.systems w.nextSystem hwf.2.1)]
    simp [lookupA]
  · rw [getEntity_spawnWorld w ev b dt hwf.1 hg,
      if_neg (Nat.ne_of_lt htb_lt), if_pos rfl]
  · intro x hx1 hx2
    rw [getEntity_spawnWorld w ev b dt hwf.1 hg, if_neg hx1, if_neg hx2]

/-- C2 witness: spawning the fragment (textbox 0, content "hi", token 9)
in the demo world creates exactly section entity 2 with its four attachments,
appends it to the textbox's children, and touches nothing else. -/
theorem c2_witness :
    WF sx0 ∧ isTextBox sx0 0 = true ∧
    (∃ w', spawnSectionFrag sx0 ⟨⟨0, "hi"⟩, 9⟩ = Except.ok w' ∧
      getEntity w' 2 = some
        { sec := some "hi", scroll := true,
          onScrollEnd := some 0, extra := some 7 } ∧
      getEntity w' 0 = some { demoTextbox with children := [1, 2] } ∧
      lookupSystem w' 0 = some (Handler.scrollEnd 2 0 9) ∧
      getEntity w' 1 = getEntity sx0 1 ∧ w'.nextId = 3) := by
  refine ⟨by decide, by decide, ?_⟩
  obtain ⟨w', b, dt, hok, hdt, hb, _, hnew, hsys, htbx, hframe, hnid, _, _⟩ :=
    c2_fragment_spawns_one_section sx0 ⟨⟨0, "hi"⟩, 9⟩ (by decide) (by decide)
  have hb7 : b = 7 := by
    have h7 : (some 7 : Option Bundle) = some b :=
      Eq.trans (Eq.symm (show bundleOf sx0 0 = some 7 by decide)) hb
    injection h7 with h7
    exact h7.symm
  have hdt' : dt = demoTextbox := by
    have h0 : (some demoTextbox : Option EntityData) = some dt :=
      Eq.trans (Eq.symm (show getEntity sx0 0 = some demoTextbox by decide)) hdt
    injection h0 with h0
    exact h0.symm
  subst hb7
  subst hdt'
  exact ⟨w', hok, hnew, htbx, hsys, hframe 1 (by decide) (by decide), hnid⟩

theorem onClearOf_armWorld (w : World) (e tb : Entity) (tok : EndToken)
    (d : EntityData) (x : Entity) :
    onClearOf (armWorld w e tb tok d) x =
      if x = e then some w.nextSystem else onClearOf w x := by
  unfold onClearOf
  rw [getEntity_armWorld]
  by_cases hx : x = e
  · simp [hx]
  · simp [hx]

theorem onClearOf_runClear (w : World) (e tb : Entity) (tok : EndToken)
    (d0 : EntityData) (he : getEntity w e = some d0) (x : Entity) :
    onClearOf (runClear w e tb tok) x = if x = e then none else onClearOf w x := by
  unfold onClearOf
  rw [getEntity_runClear w e tb tok x d0 he]
  by_cases hx : x = e
  · simp [hx]
  · simp only [hx, if_false]
    cases getEntity w x <;> simp

theorem onClearOf_applyVisEvent (w : World) (ev : UpdateContinueVis) (x : Entity) :
    onClearOf (applyVisEvent w ev) x = onClearOf w x := by
  unfold onClearOf
  rw [getEntity_applyVisEvent]
  by_cases hcond : isTextBox w ev.entity = true ∧ x ∈ childrenOf w ev.entity
  · simp only [hcond, if_true]
    cases getEntity w x <;> simp [visTouch_onClear]
  · simp [hcond]

theorem onClearOf_foldl_applyVis (evs : List UpdateContinueVis) (w : World)
    (x : Entity) : onClearOf (evs.foldl applyVisEvent w) x = onClearOf w x := by
  induction evs generalizing w with
  | nil => rfl
  | cons ev evs ih =>
    rw [List.foldl_cons, ih, onClearOf_applyVisEvent]

theorem onClearOf_drain (w : World) (x : Entity) :
    onClearOf (update_continue_visibility w) x = onClearOf w x :=
  onClearOf_foldl_applyVis w.visEvents w x

theorem onClearOf_spawnWorld (w : World) (ev : FragmentEvent) (b : Bundle)
    (dt : EntityData) (hlt : ∀ p ∈ w.entities, p.1 < w.nextId)
    (ht : getEntity w ev.data.textbox = some dt) (x : Entity) :
    onClearOf (spawnWorld w ev b dt) x = onClearOf w x := by
  have htb_lt : ev.data.textbox < w.nextId :=
    hlt (ev.data.textbox, dt) (getEntity_mem w ev.data.textbox dt ht)
  have hnone : getEntity w w.nextId = none := getEntity_w_nextId_none w hlt
  unfold onClearOf
  rw [getEntity_spawnWorld w ev b dt hlt ht]
  by_cases hx : x = w.nextId
  · subst hx
    have hne : ¬(w.nextId = ev.data.textbox) := fun hc => Nat.ne_of_lt htb_lt hc.symm
    simp [hne, hnone]
  · by_cases hxt : x = ev.data.textbox
    · subst hxt
      simp [hx, ht]
    · simp [hx, hxt]

theorem spawn_WF_step (w w1 : World) (ev : FragmentEvent) (hwf : WF w)
    (hrun : spawnSectionFrag w ev = Except.ok w1) : WF w1 := by
  obtain ⟨dt, b, ht, hb, heq⟩ := spawnSectionFrag_ok_inv w w1 ev hwf.1 hrun
  subst heq
  exact WF_spawnWorld w ev b dt hwf ht

theorem spawn_onClear_step (w w1 : World) (ev : FragmentEvent) (x : Entity)
    (hwf : WF w) (hrun : spawnSectionFrag w ev = Except.ok w1) :
    onClearOf w1 x = onClearOf w x := by
  obtain ⟨dt, b, ht, hb, heq⟩ := spawnSectionFrag_ok_inv w w1 ev hwf.1 hrun
  subst heq
  exact onClearOf_spawnWorld w ev b dt hwf.1 ht x

theorem foldlM_spawn_WF_onClear (evs : List FragmentEvent) (w w' : World)
    (x : Entity) (h : List.foldlM spawnSectionFrag w evs = Except.ok w')
    (hwf : WF w) : WF w' ∧ onClearOf w' x = onClearOf w x := by
  induction evs generalizing w with
  | nil =>
    have h' : (Except.ok w : Except String World) = Except.ok w' := h
    injection h' with h'
    subst h'
    exact ⟨hwf, rfl⟩
  | cons ev evs ih =>
    rw [List.foldlM_cons] at h
    cases hrun : spawnSectionFrag w ev with
    | error msg =>
      rw [hrun] at h
      have h' : (Except.error msg : Except String World) = Except.ok w' := h
      exact absurd h' (by simp)
    | ok w1 =>
      rw [hrun] at h
      have h' : List.foldlM spawnSectionFrag w1 evs = Except.ok w' := h
      have hwf1 := spawn_WF_step w w1 ev hwf hrun
      obtain ⟨hwf', hocl⟩ := ih w1 h' hwf1
      exact ⟨hwf', hocl.trans (spawn_onClear_step w w1 ev x hwf hrun)⟩

theorem spawn_frags_WF_onClear (w w' : World) (x : Entity)
    (h : spawn_section_frags w = Except.ok w') (hwf : WF w) :
    WF w' ∧ onClearOf w' x = onClearOf w x := by
  unfold spawn_section_frags at h
  have hwf0 : WF { w with fragEvents := [] } := hwf
  exact foldlM_spawn_WF_onClear w.fragEvents { w with fragEvents := [] } w' x h hwf0

theorem tstep_WF (w w' : World) (h : TStep w w') (hwf : WF w) : WF w' := by
  cases h with
  | drainFrags h => exact (spawn_frags_WF_onClear w w' 0 h hwf).1
  | drainVis h =>
    subst h
    exact WF_drain w hwf
  | scrollEnd e tb tok sid hreg hsys hchild hrun =>
    obtain ⟨d, he, heq⟩ := runScrollEnd_ok_inv w w' e tb tok hrun
    subst heq
    exact WF_armWorld w e tb tok d hwf he
  | clearSig e tb tok sid hreg hawait hsys hchild hrun =>
    obtain ⟨d0, he, _⟩ := awaiting_some w e hawait
    subst hrun
    exact WF_runClear w e tb tok d0 hwf he

theorem tsteps_WF (w0 w : World) (h : Steps TStep w0 w) (hwf : WF w0) : WF w := by
  induction h with
  | refl => exact hwf
  | tail w2 w3 hsteps hstep ih => exact tstep_WF w2 w3 hstep ih

theorem tstep_arming (w w' : World) (e : Entity) (h : TStep w w') (hwf : WF w)
    (hnone : onClearOf w e = none) (hsome : (onClearOf w' e).isSome = true) :
    ∃ sid tb tok, onScrollEndOf w e = some sid ∧
      lookupSystem w sid = some (Handler.scrollEnd e tb tok) ∧
      runScrollEnd w e tb tok = Except.ok w' := by
  cases h with
  | drainFrags h =>
    rw [(spawn_frags_WF_onClear w w' e h hwf).2, hnone] at hsome
    simp at hsome
  | drainVis h =>
    subst h
    rw [onClearOf_drain, hnone] at hsome
    simp at hsome
  | scrollEnd e0 tb tok sid hreg hsys hchild hrun =>
    obtain ⟨d, he, heq⟩ := runScrollEnd_ok_inv w w' e0 tb tok hrun
    subst heq
    rw [onClearOf_armWorld] at hsome
    by_cases hee : e = e0
    · subst hee
      exact ⟨sid, tb, tok, hreg, hsys, hrun⟩
    · rw [if_neg hee, hnone] at hsome
      simp at hsome
  | clearSig e0 tb tok sid hreg hawait hsys hchild hrun =>
    obtain ⟨d0, he, _⟩ := awaiting_some w e0 hawait
    subst hrun
    rw [onClearOf_runClear w e0 tb tok d0 he] at hsome
    by_cases hee : e = e0
    · rw [if_pos hee] at hsome
      simp at hsome
    · rw [if_neg hee, hnone] at hsome
      simp at hsome

/-- C3: when handler A (the scroll-end closure) runs on a live Section it
(1) registers handler B (the clear closure) bound to the same Section under
the fresh system id, (2) marks the Section awaiting-clear with handler B as
its `OnClear` action, and (3) emits a Show request for the owning Textbox.
Moreover handler B can only be armed from within handler A: along any trace
of system steps from a well-formed world in which a Section's `OnClear` is
unset, if it is ever set then some earlier step was precisely an invocation
of that Section's registered handler A — so A always fires before B for a
given Section. -/
theorem c3_scroll_end_arms_clear :
    (∀ w e tb tok w', (∀ p ∈ w.systems, p.1 < w.nextSystem) →
      runScrollEnd w e tb tok = Except.ok w' →
      lookupSystem w' w.nextSystem = some (Handler.clear e tb tok) ∧
      awaiting w' e = true ∧ onClearOf w' e = some w.nextSystem ∧
      w'.visEvents = w.visEvents ++ [⟨tb, Visibility.Visible⟩]) ∧
    (∀ w w' e, TStep w w' → WF w → onClearOf w e = none →
      (onClearOf w' e).isSome = true →
      ∃ sid tb tok, onScrollEndOf w e = some sid ∧
        lookupSystem w sid = some (Handler.scrollEnd e tb tok) ∧
        runScrollEnd w e tb tok = Except.ok w') ∧
    (∀ w0 w e, WF w0 → Steps TStep w0 w → onClearOf w0 e = none →
      (onClearOf w e).isSome = true →
      ∃ w1 w2 sid tb tok, Steps TStep w0 w1 ∧ TStep w1 w2 ∧ Steps TStep w2 w ∧
        onScrollEndOf w1 e = some sid ∧
        lookupSystem w1 sid = some (Handler.scrollEnd e tb tok) ∧
        runScrollEnd w1 e tb tok = Except.ok w2) := by
  refine ⟨?_, fun w w' e h hwf hn hs => tstep_arming w w' e h hwf hn hs, ?_⟩
  · intro w e tb tok w' hsysb hrun
    obtain ⟨d, he, heq⟩ := runScrollEnd_ok_inv w w' e tb tok hrun
    subst heq
    refine ⟨?_, ?_, ?_, rfl⟩
    · unfold lookupSystem
      show lookupA (w.systems ++ [(w.nextSystem, Handler.clear e tb tok)])
        w.nextSystem = _
      rw [lookupA_append_of_none _ _ _
        (lookupA_none_of_lt w.systems w.nextSystem hsysb)]
      simp [lookupA]
    · rw [awaiting_armWorld]
      simp
    · rw [onClearOf_armWorld]
      simp
  · intro w0 w e hwf hsteps hnone hsome
    induction hsteps with
    | refl =>
      rw [hnone] at hsome
      simp at hsome
    | tail w2 w3 hsteps hstep ih =>
      by_cases hmid : (onClearOf w2 e).isSome = true
      · obtain ⟨w1, wb, sid, tb, tok, hs1, hs2, hs3, ha, hb, hc⟩ := ih hmid
        exact ⟨w1, wb, sid, tb, tok, hs1, hs2, Steps.tail _ _ _ hs3 hstep,
          ha, hb, hc⟩
      · have hn2 : onClearOf w2 e = none := by
          cases ho : onClearOf w2 e with
          | none => rfl
          | some v => rw [ho] at hmid; simp at hmid
        have hwf2 : WF w2 := tsteps_WF w0 w2 hsteps hwf
        obtain ⟨sid, tb, tok, ha, hb, hc⟩ :=
          tstep_arming w2 w3 e hstep hwf2 hn2 hsome
        exact ⟨w2, w3, sid, tb, tok, hsteps, hstep, Steps.refl w3, ha, hb, hc⟩

/-- C3 witness: in the single-fragment run, handler A on section 2 registers
handler B as system 1, arms the section, and queues a Show request; and along
the concrete trace from sx0 to sx2, section 2's `OnClear` goes from unset to
set, so the trace contains the invocation of its handler A. -/
theorem c3_witness :
    (lookupSystem sx2 sx1.nextSystem = some (Handler.clear 2 0 50) ∧
      awaiting sx2 2 = true ∧ onClearOf sx2 2 = some sx1.nextSystem ∧
      sx2.visEvents = sx1.visEvents ++ [⟨0, Visibility.Visible⟩]) ∧
    (∃ w1 w2 sid tb tok, Steps TStep sx0 w1 ∧ TStep w1 w2 ∧ Steps TStep w2 sx2 ∧
      onScrollEndOf w1 2 = some sid ∧
      lookupSystem w1 sid = some (Handler.scrollEnd 2 tb tok) ∧
      runScrollEnd w1 2 tb tok = Except.ok w2) := by
  constructor
  · exact c3_scroll_end_arms_clear.1 sx1 2 0 50 sx2 (by decide) rfl
  · have s1 : TStep sx0 sx1 := TStep.drainFrags sx0 sx1 rfl
    have s2 : TStep sx1 sx2 :=
      TStep.scrollEnd sx1 sx2 2 0 50 0 (by decide) (by decide) (by decide) rfl
    exact c3_scroll_end_arms_clear.2.2 sx0 sx2 2 (by decide)
      (Steps.tail _ _ _ (Steps.tail _ _ _ (Steps.refl sx0) s1) s2)
      (by decide) (by decide)

theorem foldlM_spawn_err (evs : List FragmentEvent) (w : World) (hwf : WF w)
    (hex : ∃ ev, ev ∈ evs ∧ isTextBox w ev.data.textbox = false) :
    ∃ msg, List.foldlM spawnSectionFrag w evs = Except.error msg := by
  induction evs generalizing w with
  | nil =>
    obtain ⟨ev, hmem, _⟩ := hex
    simp at hmem
  | cons ev evs ih =>
    rw [List.foldlM_cons]
    by_cases hbad : isTextBox w ev.data.textbox = false
    · rw [spawnSectionFrag_err w ev ((bundleOf_eq_none_iff w _).mpr hbad)]
      exact ⟨noTextboxMsg ev.data.textbox, rfl⟩
    · cases hrun : spawnSectionFrag w ev with
      | error msg =>
        exact ⟨msg, rfl⟩
      | ok w1 =>
        have hwf1 := spawn_WF_step w w1 ev hwf hrun
        obtain ⟨ev', hmem, hbad'⟩ := hex
        have hmem' : ev' ∈ evs := by
          rcases List.mem_cons.mp hmem with h | h
          · subst h
            exact absurd hbad' hbad
          · exact h
        obtain ⟨dt, b, ht, hb, heq⟩ := spawnSectionFrag_ok_inv w w1 ev hwf.1 hrun
        have hpres : isTextBox w1 ev'.data.textbox = false := by
          rw [heq, isTextBox_spawnWorld w ev b dt hwf.1 ht]
          exact hbad'
        obtain ⟨msg, hmsg⟩ := ih w1 hwf1 ⟨ev', hmem', hpres⟩
        exact ⟨msg, hmsg⟩

/-- C6: a fragment-ready notification referencing an entity without a
`TextBox` component makes section spawning abort with the descriptive unwrap
error naming the entity; a drain pass whose queue contains such a fragment
ends in an error, never in silent success. -/
theorem c6_missing_textbox_fatal :
    (∀ w ev, isTextBox w ev.data.textbox = false →
      spawnSectionFrag w ev = Except.error (noTextboxMsg ev.data.textbox)) ∧
    (∀ w, WF w →
      (∃ ev, ev ∈ w.fragEvents ∧ isTextBox w ev.data.textbox = false) →
      ∃ msg, spawn_section_frags w = Except.error msg) := by
  constructor
  · intro w ev h
    exact spawnSectionFrag_err w ev ((bundleOf_eq_none_iff w _).mpr h)
  · intro w hwf hex
    unfold spawn_section_frags
    exact foldlM_spawn_err w.fragEvents { w with fragEvents := [] } hwf hex

/-- World whose queued fragment references entity 5, which does not exist. -/
def c6w : World :=
  { entities := [(0, demoTextbox), (1, demoIndicator)], nextId := 2,
    fragEvents := [⟨⟨5, "x"⟩, 1⟩] }

/-- C6 witness: the fragment referencing missing entity 5 aborts the spawn
with the descriptive error, and the whole drain pass errors instead of
silently dropping the fragment. -/
theorem c6_witness :
    isTextBox c6w 5 = false ∧
    spawnSectionFrag c6w ⟨⟨5, "x"⟩, 1⟩ = Except.error (noTextboxMsg 5) ∧
    WF c6w ∧ (∃ msg, spawn_section_frags c6w = Except.error msg) :=
  ⟨by decide, c6_missing_textbox_fatal.1 c6w ⟨⟨5, "x"⟩, 1⟩ (by decide), by decide,
    c6_missing_textbox_fatal.2 c6w (by decide)
      ⟨⟨⟨5, "x"⟩, 1⟩, by decide, by decide⟩⟩
